import Mathlib

/-!
Verification development for the glugglug batched 2D sprite renderer with
render-target cache layer.  The definitions below are a shallow embedding of
the TypeScript sources:

* `src/src/CachedRenderer.ts` (second revision: the `cacheGroup`-based
  `CachedRenderer`),
* the `Engine` with caching support (`src/unnamed/part_006`, second revision),
* the base `Renderer` (`src/unnamed/part_010`),
* `src/src/CacheManager.ts`.

Modelling conventions:

* JS numbers are modelled as `ℚ` (exact arithmetic).
* `Float32Array` buffers are modelled as write-logs `List (Nat × ℚ)` (most
  recent write first); a write prepends `(index, value)`.  The main and the
  dedicated capture ("scratch") buffers are separate fields, and the JS
  pointer swap `this.vertexBuffer = this.cacheVertexBuffer` is modelled by
  the `usingScratch` flag selecting which field a write targets.
* JS `Map`s are insertion-ordered association lists; `Map.set` of a fresh key
  appends, `Map.delete` filters, arrays of ids use erase/append like
  `indexOf`/`splice`/`push`.
* WebGL textures and framebuffers are opaque handles drawn from `nextHandle`.
* GL calls that only touch ambient GPU state (bind, viewport, clear,
  uniforms) have no observable effect on any claim and are not modelled;
  `renderVertexBuffer` (a flush: upload + draw call) and every quad append
  are recorded in a ghost chronological `batchLog` (most recent first).
* JS exceptions are modelled by threading `Option Err` next to the state:
  mutations made before a throw persist, later statements do not run, and a
  `finally` block is applied to the state of both outcomes.
-/

/-- A `Float32Array` as a write log: most recent `(index, value)` first. -/
abbrev Arr := List (Nat × ℚ)

/-- Write the values `vs` at consecutive indices starting at `off`. -/
def arrWriteSeq (a : Arr) (off : Nat) : List ℚ → Arr
  | [] => a
  | v :: vs => arrWriteSeq ((off, v) :: a) (off + 1) vs

/-- A segment texture source: the shared sprite sheet or a cached texture
(`WebGLTexture | 'SPRITESHEET'` in the source). -/
inductive TexSrc where
  | sheet
  | tex (handle : Nat)
deriving Repr, DecidableEq

/-- One draw-order segment: `{ texture, start, end? }` in the source
(`end` is a Lean keyword, so the field is called `stop`). -/
structure Seg where
  texture : TexSrc
  start : Nat
  stop : Option Nat
deriving Repr, DecidableEq

/-- The cache registry of `CachedRenderer`: `cacheMap`, `cacheFramebuffers`,
`cacheSizes` (insertion-ordered association lists, like JS `Map`) and the LRU
array `cacheAccessOrder`. -/
structure CacheSt where
  cmap : List (String × Nat)
  cfbs : List (String × Nat)
  csizes : List (String × (ℚ × ℚ))
  corder : List String
deriving Repr, DecidableEq

/-- `Map.set`: replace in place when the key exists, append otherwise. -/
def mapSet {β : Type} (m : List (String × β)) (k : String) (v : β) :
    List (String × β) :=
  if (m.lookup k).isSome then m.map (fun p => if p.1 = k then (k, v) else p)
  else m ++ [(k, v)]

/-- The keys of an association list, in insertion order. -/
def mapKeys {β : Type} (m : List (String × β)) : List String :=
  m.map Prod.fst

/-- `CachedRenderer.updateAccessOrder`: if the id is present, move it to the
most-recently-used end (`indexOf` + `splice` + `push`). -/
def updateAccessOrder (cacheId : String) (c : CacheSt) : CacheSt :=
  if c.corder.contains cacheId then
    { c with corder := c.corder.erase cacheId ++ [cacheId] }
  else c

/-- `CachedRenderer.clearCache`, registry part: delete the id from all three
maps and splice it out of `cacheAccessOrder` (GL resource deletion has no
observable effect here). -/
def clearCacheSt (cacheId : String) (c : CacheSt) : CacheSt :=
  { cmap := c.cmap.filter (fun p => p.1 ≠ cacheId)
    cfbs := c.cfbs.filter (fun p => p.1 ≠ cacheId)
    csizes := c.csizes.filter (fun p => p.1 ≠ cacheId)
    corder := c.corder.erase cacheId }

/-- `CachedRenderer.evictOldCacheEntries`:
`while (cacheMap.size > maxCacheItems) { const oldest = accessOrder.shift();
if (oldest) clearCache(oldest); }`.
The JS truthiness test `if (oldest)` skips `clearCache` both for `undefined`
(empty array) and for the empty string `""`.  When the order array runs dry
while the map is still over the bound, the JS loop never terminates; that is
modelled by the result `none`. -/
def evictLoop (fuel : Nat) (c : CacheSt) (maxItems : Nat) : Option CacheSt :=
  match fuel with
  | 0 => if c.cmap.length ≤ maxItems then some c else none
  | fuel + 1 =>
    if c.cmap.length ≤ maxItems then some c
    else
      match c.corder with
      | [] => none
      | cacheId :: rest =>
        if cacheId = "" then evictLoop fuel { c with corder := rest } maxItems
        else evictLoop fuel (clearCacheSt cacheId { c with corder := rest }) maxItems

/-- The loop entry point.  Every iteration shifts at least one element off
`corder`, so `corder.length` iterations always reach either the loop exit or
the empty-order hang; the fuel is therefore exact, not an approximation. -/
def evictGo (c : CacheSt) (maxItems : Nat) : Option CacheSt :=
  evictLoop c.corder.length c maxItems

/-- A ghost record of one batch event: a flush (upload + one draw call) or
one quad append, with the active-buffer flag and the value of
`bufferCounter` when the event happened. -/
inductive BatchEv where
  | flush (scratch : Bool) (counter : Nat)
  | append (scratch : Bool) (counter : Nat)
deriving Repr, DecidableEq

/-- State of the `CachedRenderer` (second revision) together with the fields
it inherits from `Renderer`. -/
structure RState where
  bufferSize : Nat
  mainVertexBuffer : Arr
  mainTexcoordBuffer : Arr
  cacheVertexBuffer : Arr
  cacheTexcoordBuffer : Arr
  usingScratch : Bool
  bufferPointer : Nat
  bufferCounter : Nat
  spriteSheetWidth : ℚ
  spriteSheetHeight : ℚ
  cache : CacheSt
  maxCacheItems : Nat
  currentCacheId : Option String
  nextHandle : Nat
  segments : List Seg
  currentSegmentTexture : TexSrc
  batchLog : List BatchEv
deriving Repr, DecidableEq

/-- Write position floats through the currently active vertex buffer
(`this.vertexBuffer`, which is the scratch buffer during capture). -/
def writePositions (r : RState) (off : Nat) (vs : List ℚ) : RState :=
  if r.usingScratch then
    { r with cacheVertexBuffer := arrWriteSeq r.cacheVertexBuffer off vs }
  else
    { r with mainVertexBuffer := arrWriteSeq r.mainVertexBuffer off vs }

/-- Write texture-coordinate floats through the currently active buffer. -/
def writeTexcoords (r : RState) (off : Nat) (vs : List ℚ) : RState :=
  if r.usingScratch then
    { r with cacheTexcoordBuffer := arrWriteSeq r.cacheTexcoordBuffer off vs }
  else
    { r with mainTexcoordBuffer := arrWriteSeq r.mainTexcoordBuffer off vs }

/-- `Renderer.renderVertexBuffer`: upload both buffers and issue one draw
call.  Observable effect: one ghost flush event. -/
def renderVertexBuffer (r : RState) : RState :=
  { r with batchLog := .flush r.usingScratch r.bufferCounter :: r.batchLog }

/-- Ghost bookkeeping shared by all three quad appenders: log the append
and advance the cursor past the 12 written floats. -/
def recordAppend (r : RState) : RState :=
  { r with batchLog := .append r.usingScratch r.bufferCounter :: r.batchLog,
           bufferCounter := r.bufferCounter + 12,
           bufferPointer := r.bufferCounter + 12 }

/-- `Renderer.resetBuffers`: zero the write cursor without deallocating. -/
def resetBuffers (r : RState) : RState :=
  { r with bufferPointer := 0, bufferCounter := 0 }

/-- `fillBufferWithRectangleVertices` (vertex layout documented by
`tests/utils/buffer.test.ts` and mirrored by `drawCachedTexture`). -/
def rectVerts (x y w h : ℚ) : List ℚ :=
  [x, y, x + w, y, x, y + h, x, y + h, x + w, y, x + w, y + h]

/-- `fillBufferWithSpriteCoordinates`: UVs are sprite-sheet pixel coordinates
divided by the sheet dimensions (documented by `tests/utils/buffer.test.ts`).
Sheet dimensions are assumed nonzero; no claim inspects these values. -/
def spriteUV (sx sy sw sh sheetW sheetH : ℚ) : List ℚ :=
  [sx / sheetW, sy / sheetH,
   (sx + sw) / sheetW, sy / sheetH,
   sx / sheetW, (sy + sh) / sheetH,
   sx / sheetW, (sy + sh) / sheetH,
   (sx + sw) / sheetW, sy / sheetH,
   (sx + sw) / sheetW, (sy + sh) / sheetH]

/-- Rational square-root approximation (used only by the spec-modelled line
geometry, whose exact values no claim inspects). -/
def ratSqrtApprox (q : ℚ) : ℚ := (Int.sqrt q.num : ℚ) / (Nat.sqrt q.den : ℚ)

/-- Modelled from the spec: `fillBufferWithLineVertices` of
`src/utils/buffer.ts` is not present under `src/` (only its tests and its
caller are).  Per spec §4.1 a line is expanded into a quad via a
perpendicular offset of `thickness / 2` computed from the line direction;
for a zero-length line the direction is undefined and the implementation
must clamp (here: unit direction `(1, 0)`) rather than divide by zero. -/
def lineVertsQ (x1 y1 x2 y2 t : ℚ) : List ℚ :=
  let dx := x2 - x1
  let dy := y2 - y1
  let lenSq := dx * dx + dy * dy
  let len := ratSqrtApprox lenSq
  let nx := if lenSq = 0 then 1 else dx / len
  let ny := if lenSq = 0 then 0 else dy / len
  let px := -(t / 2) * ny
  let py := (t / 2) * nx
  [x1 + px, y1 + py, x2 + px, y2 + py, x1 - px, y1 - py,
   x1 - px, y1 - py, x2 + px, y2 + py, x2 - px, y2 - py]

/-- Close the most recent segment at vertex index `idx` if it is still open
(`segments` is stored most-recent-first; JS pushes to the array end). -/
def closeHeadSeg (segs : List Seg) (idx : Nat) : List Seg :=
  match segs with
  | [] => []
  | s :: rest => if s.stop = none then { s with stop := some idx } :: rest
                 else s :: rest

/-- `CachedRenderer.ensureSegment`: record a texture-source transition for
the live draw stream; never records during capture. -/
def ensureSegment (t : TexSrc) (r : RState) : RState :=
  if r.currentCacheId.isSome then r
  else
    let idx := r.bufferCounter / 2
    if r.segments.isEmpty then
      { r with segments := [⟨t, idx, none⟩], currentSegmentTexture := t }
    else if r.currentSegmentTexture ≠ t then
      { r with segments := ⟨t, idx, none⟩ :: closeHeadSeg r.segments idx,
               currentSegmentTexture := t }
    else r

/-- `Renderer.drawSpriteFromCoordinates` (part_010): auto-flush when the
append would overflow, then fill one rectangle quad and advance the cursor.
The ghost `appendLog` records the cursor value each quad is appended at. -/
def baseDrawSprite (x y w h sx sy sw sh : ℚ) (r : RState) : RState :=
  let r :=
    if r.bufferCounter + 12 > r.bufferSize then
      let r1 := renderVertexBuffer r
      { r1 with bufferCounter := 0, bufferPointer := 0 }
    else r
  let r := writePositions r r.bufferPointer (rectVerts x y w h)
  let r := writeTexcoords r r.bufferPointer
    (spriteUV sx sy sw sh r.spriteSheetWidth r.spriteSheetHeight)
  recordAppend r

/-- `Renderer.drawLineFromCoordinates` (part_010): same overflow handling,
line quad geometry via `lineVertsQ`. -/
def baseDrawLine (x1 y1 x2 y2 sx sy sw sh t : ℚ) (r : RState) : RState :=
  let r :=
    if r.bufferCounter + 12 > r.bufferSize then
      let r1 := renderVertexBuffer r
      { r1 with bufferCounter := 0, bufferPointer := 0 }
    else r
  let r := writePositions r r.bufferPointer (lineVertsQ x1 y1 x2 y2 t)
  let r := writeTexcoords r r.bufferPointer
    (spriteUV sx sy sw sh r.spriteSheetWidth r.spriteSheetHeight)
  recordAppend r

/-- `CachedRenderer.drawSpriteFromCoordinates` (second revision): record a
sprite-sheet segment outside capture, then the base append. -/
def crDrawSprite (x y w h sx sy sw sh : ℚ) (r : RState) : RState :=
  let r := if r.currentCacheId = none then ensureSegment .sheet r else r
  baseDrawSprite x y w h sx sy sw sh r

/-- `CachedRenderer.drawLineFromCoordinates` (second revision). -/
def crDrawLine (x1 y1 x2 y2 sx sy sw sh t : ℚ) (r : RState) : RState :=
  let r := if r.currentCacheId = none then ensureSegment .sheet r else r
  baseDrawLine x1 y1 x2 y2 sx sy sw sh t r

/-- `CachedRenderer.drawCachedTexture`: never draws during capture; records
a segment for the cached texture, auto-flushes on overflow, then appends one
textured quad with the V-flipped UVs. -/
def drawCachedTexture (handle : Nat) (w h x y : ℚ) (r : RState) : RState :=
  if r.currentCacheId.isSome then r
  else
    let r := ensureSegment (.tex handle) r
    let r :=
      if r.bufferCounter + 12 > r.bufferSize then
        ensureSegment (.tex handle) (resetBuffers (renderVertexBuffer r))
      else r
    let r := writePositions r r.bufferPointer (rectVerts x y w h)
    let r := writeTexcoords r r.bufferPointer
      [0, 1, 1, 1, 0, 0, 0, 0, 1, 1, 1, 0]
    recordAppend r

/-- `CachedRenderer.getCachedData`: on a hit (`texture && size`) move the id
to the MRU end and return the texture handle with its stored size. -/
def getCachedData (cacheId : String) (r : RState) :
    Option (Nat × ℚ × ℚ) × RState :=
  match r.cache.cmap.lookup cacheId, r.cache.csizes.lookup cacheId with
  | some t, some s =>
      (some (t, s.1, s.2), { r with cache := updateAccessOrder cacheId r.cache })
  | some _, none => (none, r)
  | none, _ => (none, r)

/-- `CachedRenderer.hasCachedContent`. -/
def hasCachedContent (cacheId : String) (r : RState) : Bool :=
  (r.cache.cmap.lookup cacheId).isSome

/-- `CachedRenderer.evictOldCacheEntries` lifted to the renderer state;
`none` models the non-terminating JS loop. -/
def evictOldCacheEntries (r : RState) : Option RState :=
  (evictGo r.cache r.maxCacheItems).map (fun c => { r with cache := c })

/-- First half of `CachedRenderer.renderWithPostProcessing`: close the
current segment if the frame is outside capture and the last segment is
still open. -/
def closeFrameSegments (r : RState) : RState :=
  if r.currentCacheId = none ∧ r.segments ≠ [] then
    { r with segments := closeHeadSeg r.segments (r.bufferCounter / 2) }
  else r

/-- The per-segment draw calls of `renderWithPostProcessing`: one
`(source, start, count)` draw per recorded segment with positive count, in
recorded order. -/
def segmentDraws (r : RState) : List (TexSrc × Nat × Nat) :=
  r.segments.reverse.filterMap (fun s =>
    let stop := s.stop.getD (r.bufferCounter / 2)
    if s.start < stop then some (s.texture, s.start, stop - s.start) else none)

/-- `CachedRenderer.renderWithPostProcessing` (second revision): close the
open segment, then either replay the segment list (one draw call each) or
fall back to a single full flush, and reset the segment state for the next
frame.  Returns the issued per-segment draw calls. -/
def renderWithPostProcessing (r : RState) : RState × List (TexSrc × Nat × Nat) :=
  let r1 := closeFrameSegments r
  if r1.currentCacheId = none ∧ r1.segments ≠ [] then
    ({ r1 with segments := [], currentSegmentTexture := .sheet },
     segmentDraws r1)
  else
    let r2 := renderVertexBuffer r1
    ({ r2 with segments := [], currentSegmentTexture := .sheet }, [])

/-- Error taxonomy of the modelled operations.  `evictionHang` marks the
state in which the JS eviction loop would never terminate. -/
inductive Err where
  | nestedCapture
  | noGroupToEnd
  | userError
  | evictionHang
deriving Repr, DecidableEq

/-- State of the caching `Engine` (part_006, second revision).  `cbLog` is a
ghost log of the `(offsetX, offsetY)` in effect each time a `cacheGroup`
draw callback is invoked (most recent first). -/
structure EState where
  rend : RState
  offsetX : ℚ
  offsetY : ℚ
  offsetGroups : List (ℚ × ℚ)
  savedOffsetX : Option ℚ
  savedOffsetY : Option ℚ
  cachingEnabled : Bool
  cbLog : List (ℚ × ℚ)
deriving Repr, DecidableEq

/-- The draw commands a frame callback or a `cacheGroup` callback can issue
(each is one public `Engine` entry point); `throwErr` models a callback that
throws. -/
inductive Cmd where
  | sprite (x y w h sx sy sw sh : ℚ)
  | line (x1 y1 x2 y2 sx sy sw sh t : ℚ)
  | cached (cacheId : String) (x y : ℚ)
  | startGroup (dx dy : ℚ)
  | endGroup
  | throwErr
deriving Repr, DecidableEq

/-- `Engine.drawCachedContent`: silently skip when caching is off or the id
is unknown; otherwise apply the transform offset, look the entry up (which
touches the LRU order) and play back one quad. -/
def engineDrawCachedContent (cacheId : String) (x y : ℚ) (e : EState) : EState :=
  if !e.cachingEnabled then e
  else if !(hasCachedContent cacheId e.rend) then e
  else
    let x := x + e.offsetX
    let y := y + e.offsetY
    match getCachedData cacheId e.rend with
    | (some (t, cw, ch), r1) => { e with rend := drawCachedTexture t cw ch x y r1 }
    | (none, r1) => { e with rend := r1 }

/-- One engine draw command (`Engine.drawSpriteFromCoordinates`,
`Engine.drawLine`, `Engine.drawCachedContent`, `Engine.startGroup`,
`Engine.endGroup`); returns the new state and the thrown error, if any. -/
def runSimple (c : Cmd) (e : EState) : EState × Option Err :=
  match c with
  | .sprite x y w h sx sy sw sh =>
      ({ e with rend := crDrawSprite (x + e.offsetX) (y + e.offsetY) w h sx sy sw sh e.rend },
       none)
  | .line x1 y1 x2 y2 sx sy sw sh t =>
      ({ e with rend := crDrawLine (x1 + e.offsetX) (y1 + e.offsetY)
                  (x2 + e.offsetX) (y2 + e.offsetY) sx sy sw sh t e.rend },
       none)
  | .cached cacheId x y => (engineDrawCachedContent cacheId x y e, none)
  | .startGroup dx dy =>
      ({ e with offsetX := e.offsetX + dx, offsetY := e.offsetY + dy,
                offsetGroups := (dx, dy) :: e.offsetGroups }, none)
  | .endGroup =>
      match e.offsetGroups with
      | [] => (e, some .noGroupToEnd)
      | (dx, dy) :: rest =>
          ({ e with offsetX := e.offsetX - dx, offsetY := e.offsetY - dy,
                    offsetGroups := rest }, none)
  | .throwErr => (e, some .userError)

/-- Run a command list; an exception stops execution but keeps the state
mutations made so far. -/
def runBody : List Cmd → EState → EState × Option Err
  | [], e => (e, none)
  | c :: cs, e =>
    match runSimple c e with
    | (e1, none) => runBody cs e1
    | (e1, some er) => (e1, some er)

/-- `CachedRenderer.cacheGroup` (second revision).  Guard against nesting,
play back an existing entry, or run the creation path: swap the CPU-side
buffers for the dedicated capture buffers (saving the cursor), create the
render target, register the entry, evict over-capacity entries, run the
callback inside `try`, and in `finally` flush the scratch batch into the
target, restore GL state (not modelled), restore the saved buffers and
cursor, and leave capture mode.  The callback body runs through the engine
command interpreter; its invocation is recorded in the ghost `cbLog`. -/
def rendererCacheGroup (cacheId : String) (w h : ℚ) (body : List Cmd)
    (e : EState) : EState × Option Err × Bool :=
  let r := e.rend
  if r.currentCacheId.isSome then (e, some .nestedCapture, false)
  else
    match getCachedData cacheId r with
    | (some (t, cw, ch), r1) =>
        ({ e with rend := drawCachedTexture t cw ch 0 0 r1 }, none, false)
    | (none, _) =>
      let savedBufferPointer := r.bufferPointer
      let savedBufferCounter := r.bufferCounter
      let r1 := { r with usingScratch := true, bufferPointer := 0,
                         bufferCounter := 0 }
      let texHandle := r1.nextHandle
      let fbHandle := r1.nextHandle + 1
      let r2 := { r1 with nextHandle := r1.nextHandle + 2 }
      let c := r2.cache
      let c1 : CacheSt :=
        { cmap := mapSet c.cmap cacheId texHandle
          cfbs := mapSet c.cfbs cacheId fbHandle
          csizes := mapSet c.csizes cacheId (w, h)
          corder := c.corder ++ [cacheId] }
      let r3 := { r2 with cache := c1, currentCacheId := some cacheId }
      match evictOldCacheEntries r3 with
      | none => ({ e with rend := r3 }, some .evictionHang, false)
      | some r4 =>
        let e1 := { e with rend := r4, cbLog := (e.offsetX, e.offsetY) :: e.cbLog }
        let (e2, bodyErr) := runBody body e1
        let rb := e2.rend
        let rb1 := if rb.bufferCounter > 0 then resetBuffers (renderVertexBuffer rb)
                   else rb
        let rb2 := { rb1 with usingScratch := false,
                              bufferPointer := savedBufferPointer,
                              bufferCounter := savedBufferCounter,
                              currentCacheId := none }
        ({ e2 with rend := rb2 }, bodyErr, true)

/-- `Engine.cacheGroup` (part_006, second revision).  With caching off or
the per-call flag `enabled` false the callback simply runs inline.  On a hit
the cached quad is played back at the current offset.  On the creation path
the scalar offset is saved and zeroed, the renderer capture runs, and the
offset is restored afterwards — note the restore is skipped when the
callback throws, because the source has no `try`/`finally` around the
renderer call. -/
def engineCacheGroup (cacheId : String) (w h : ℚ) (body : List Cmd)
    (enabled : Bool) (e : EState) : EState × Option Err × Bool :=
  if !e.cachingEnabled then
    let e0 := { e with cbLog := (e.offsetX, e.offsetY) :: e.cbLog }
    let (e1, er) := runBody body e0
    (e1, er, false)
  else if !enabled then
    let e0 := { e with cbLog := (e.offsetX, e.offsetY) :: e.cbLog }
    let (e1, er) := runBody body e0
    (e1, er, false)
  else if hasCachedContent cacheId e.rend then
    (engineDrawCachedContent cacheId 0 0 e, none, false)
  else
    let e1 := { e with savedOffsetX := some e.offsetX,
                       savedOffsetY := some e.offsetY,
                       offsetX := 0, offsetY := 0 }
    match rendererCacheGroup cacheId w h body e1 with
    | (e2, some er, created) => (e2, some er, created)
    | (e2, none, created) =>
      match e2.savedOffsetX, e2.savedOffsetY with
      | some sx, some sy =>
          ({ e2 with offsetX := sx, offsetY := sy,
                     savedOffsetX := none, savedOffsetY := none }, none, created)
      | _, _ => (e2, none, created)

/-- `Engine.clearCache` → `CachedRenderer.clearCache`. -/
def engineClearCache (cacheId : String) (e : EState) : EState :=
  if !e.cachingEnabled then e
  else { e with rend := { e.rend with cache := clearCacheSt cacheId e.rend.cache } }

/-- `CachedRenderer.clearAllCache`: delete every GL resource and empty all
tracking structures. -/
def clearAllCache (r : RState) : RState :=
  { r with cache := { cmap := [], cfbs := [], csizes := [], corder := [] } }

/-- State of `CacheManager` (src/src/CacheManager.ts): the same registry
shape plus the explicit capture flags. -/
structure CMState where
  cache : CacheSt
  maxCacheItems : Nat
  isInCacheGroup : Bool
  currentCacheId : Option String
  isUsingExistingCache : Bool
  nextHandle : Nat
deriving Repr, DecidableEq

/-- `CacheManager.updateCacheAccess`: splice the id out if present, then
always push it to the MRU end. -/
def cmUpdateCacheAccess (cacheId : String) (c : CacheSt) : CacheSt :=
  { c with corder := c.corder.erase cacheId ++ [cacheId] }

/-- `CacheManager.startCacheGroup`: fail fast on nesting (before any state
change), else enter the group and either mark an existing entry as reused or
create a new registry entry and enforce the capacity bound.
`CacheManager.clearCache` deletes exactly the structures `clearCacheSt`
filters (its `if (texture)` / `if (framebuffer)` guards only skip deletes of
absent keys, which the filters make no-ops), and
`CacheManager.enforceMaxCacheLimit` is the same shift/truthy loop as
`evictOldCacheEntries`, so both reuse `clearCacheSt`/`evictGo`. -/
def cmStartCacheGroup (cacheId : String) (w h : ℚ) (m : CMState) :
    CMState × Option Err × Bool :=
  if m.isInCacheGroup then (m, some .nestedCapture, false)
  else
    let m1 := { m with isInCacheGroup := true, currentCacheId := some cacheId }
    if (m1.cache.cmap.lookup cacheId).isSome then
      ({ m1 with cache := cmUpdateCacheAccess cacheId m1.cache,
                 isUsingExistingCache := true }, none, false)
    else
      let texHandle := m1.nextHandle
      let fbHandle := m1.nextHandle + 1
      let c := m1.cache
      let c1 : CacheSt :=
        { cmap := mapSet c.cmap cacheId texHandle
          cfbs := mapSet c.cfbs cacheId fbHandle
          csizes := mapSet c.csizes cacheId (w, h)
          corder := c.corder ++ [cacheId] }
      match evictGo c1 m1.maxCacheItems with
      | none => ({ m1 with cache := c1, nextHandle := m1.nextHandle + 2 },
                 some .evictionHang, false)
      | some c2 =>
          ({ m1 with cache := c2, nextHandle := m1.nextHandle + 2,
                     isUsingExistingCache := false }, none, true)

/-- A JS float abstracted to finiteness: `some q` is a finite value, `none`
is non-finite (NaN or ±Infinity). -/
abbrev FVal := Option ℚ

/-- Addition of finite values; any non-finite operand is contagious. -/
def fadd : FVal → FVal → FVal
  | some a, some b => some (a + b)
  | _, _ => none

/-- Subtraction with non-finite contagion. -/
def fsub : FVal → FVal → FVal
  | some a, some b => some (a - b)
  | _, _ => none

/-- Multiplication with non-finite contagion (ignoring the finite-overflow
cases, which no claim exercises). -/
def fmul : FVal → FVal → FVal
  | some a, some b => some (a * b)
  | _, _ => none

/-- Negation. -/
def fneg : FVal → FVal
  | some a => some (-a)
  | none => none

/-- Division: a zero divisor yields NaN or ±Infinity in JS, hence
non-finite. -/
def fdiv : FVal → FVal → FVal
  | some a, some b => if b = 0 then none else some (a / b)
  | _, _ => none

/-- Square root: non-finite (NaN) for negative arguments, a finite rational
approximation otherwise. -/
def fsqrt : FVal → FVal
  | some a => if 0 ≤ a then some (ratSqrtApprox a) else none
  | none => none

/-- Modelled from the spec: the implementation of
`fillBufferWithLineVertices` (`src/utils/buffer.ts`) is not present under
`src/` — only its unit tests and its caller `Renderer.drawLineFromCoordinates`
are.  Per spec §4.1, the line is expanded into a quad by a perpendicular
offset of half the thickness along the normalized direction; for a
zero-length line the direction is undefined and the implementation must
clamp (here to the unit direction `(1, 0)`) rather than divide by zero.
Arithmetic is tracked at the level of finiteness (`FVal`). -/
def fillBufferWithLineVertices (x1 y1 x2 y2 t : ℚ) : List FVal :=
  let dx := fsub (some x2) (some x1)
  let dy := fsub (some y2) (some y1)
  let len := fsqrt (fadd (fmul dx dx) (fmul dy dy))
  let nx := if len = some 0 then some 1 else fdiv dx len
  let ny := if len = some 0 then some 0 else fdiv dy len
  let px := fmul (fneg (some (t / 2))) ny
  let py := fmul (some (t / 2)) nx
  [fadd (some x1) px, fadd (some y1) py,
   fadd (some x2) px, fadd (some y2) py,
   fsub (some x1) px, fsub (some y1) py,
   fsub (some x1) px, fsub (some y1) py,
   fadd (some x2) px, fadd (some y2) py,
   fsub (some x2) px, fsub (some y2) py]

/-- The renderer state right after construction (`growBuffer(20000)` gives
20000 × 12 floats) with a 128×128 sprite sheet loaded and the given cache
capacity. -/
def initRState (maxItems : Nat) : RState :=
  { bufferSize := 240000
    mainVertexBuffer := []
    mainTexcoordBuffer := []
    cacheVertexBuffer := []
    cacheTexcoordBuffer := []
    usingScratch := false
    bufferPointer := 0
    bufferCounter := 0
    spriteSheetWidth := 128
    spriteSheetHeight := 128
    cache := { cmap := [], cfbs := [], csizes := [], corder := [] }
    maxCacheItems := maxItems
    currentCacheId := none
    nextHandle := 0
    segments := []
    currentSegmentTexture := .sheet
    batchLog := [] }

/-- A caching-enabled engine right after construction. -/
def initEState (maxItems : Nat) : EState :=
  { rend := initRState maxItems
    offsetX := 0
    offsetY := 0
    offsetGroups := []
    savedOffsetX := none
    savedOffsetY := none
    cachingEnabled := true
    cbLog := [] }

/-- Shorthand for one `cacheGroup` call, keeping only the state. -/
def cgStep (cacheId : String) (e : EState) : EState :=
  (engineCacheGroup cacheId 10 10 [] true e).1

/-- Spec §3 registry invariant: the access order is exactly the keys of the
id-to-entry mapping (no duplicates) and the mapping respects the capacity
bound. -/
def registryInvariant (r : RState) : Prop :=
  r.cache.corder.Perm (mapKeys r.cache.cmap) ∧ r.cache.corder.Nodup ∧
    r.cache.cmap.length ≤ r.maxCacheItems

instance (r : RState) : Decidable (registryInvariant r) := by
  unfold registryInvariant; infer_instance

/-- C4: LRU eviction order.  With `maxEntries = 3`, creating A, B, C, D via
`cacheGroup` leaves exactly {B, C, D} (access order `[B, C, D]`); creating
A, B, C, then re-calling `cacheGroup(A)` (a reuse/access), then creating D
leaves exactly {C, A, D} — B is evicted and A survives because the access
moved it to the MRU end. -/
theorem c4_lru_eviction_order :
    (let e := cgStep "D" (cgStep "C" (cgStep "B" (cgStep "A" (initEState 3))))
     mapKeys e.rend.cache.cmap = ["B", "C", "D"] ∧
       e.rend.cache.corder = ["B", "C", "D"]) ∧
    (let e := cgStep "D"
        (cgStep "A" (cgStep "C" (cgStep "B" (cgStep "A" (initEState 3)))))
     (mapKeys e.rend.cache.cmap).Perm ["C", "A", "D"] ∧
       e.rend.cache.corder = ["C", "A", "D"]) := by
  decide

/-- C5 (code bug): with `maxEntries = 1`, after `cacheGroup("")` (which
completes and satisfies the invariant) a subsequent `cacheGroup("x")`
completes normally but leaves the registry with mapping `{""}` and an empty
access order: the truthiness test `if (oldestCacheId)` in
`evictOldCacheEntries` skips `clearCache("")` after shifting `""` off the
access order, so the entry stays in the mapping while leaving the order,
violating the spec invariant. -/
theorem c5_registry_invariant_broken_by_empty_id :
    (let s1 := engineCacheGroup "" 10 10 [] true (initEState 1)
     s1.2.1 = none ∧ s1.2.2 = true ∧ registryInvariant s1.1.rend ∧
       (let s2 := engineCacheGroup "x" 10 10 [] true s1.1
        s2.2.1 = none ∧ s2.2.2 = true ∧
          mapKeys s2.1.rend.cache.cmap = [""] ∧
          s2.1.rend.cache.corder = [] ∧
          ¬ registryInvariant s2.1.rend)) := by
  decide

/-- C2 (counterexample): from an engine whose transform offset is `(5, 7)`,
a `cacheGroup` creation whose callback throws leaves the offset at `(0, 0)`
instead of restoring `(5, 7)` — `Engine.cacheGroup` restores the saved
offset only after a normal return, with no `try`/`finally`. -/
theorem c2_counterexample_offsets_lost_on_throw :
    (let e0 : EState := { initEState 3 with offsetX := 5, offsetY := 7 }
     let res := engineCacheGroup "g" 10 10 [Cmd.throwErr] true e0
     res.2.1 = some Err.userError ∧
       ¬ (res.1.offsetX = e0.offsetX ∧ res.1.offsetY = e0.offsetY)) := by
  decide

/-- C9: a zero-length line (coinciding endpoints) still produces a quad all
12 of whose buffer values are finite — the direction is clamped instead of
being obtained by dividing by the zero length. -/
theorem c9_zero_length_line_finite (x1 y1 x2 y2 t : ℚ)
    (hx : x1 = x2) (hy : y1 = y2) :
    ∀ v ∈ fillBufferWithLineVertices x1 y1 x2 y2 t, v.isSome := by
  subst hx; subst hy
  simp [fillBufferWithLineVertices, fadd, fsub, fmul, fneg, fsqrt,
        ratSqrtApprox]

/-- C9 witness: the degenerate line of the unit test, from `(5, 5)` to
`(5, 5)` with thickness 2. -/
theorem c9_zero_length_line_finite_witness :
    (5 : ℚ) = 5 ∧ ∀ v ∈ fillBufferWithLineVertices 5 5 5 5 2, v.isSome :=
  ⟨rfl, c9_zero_length_line_finite 5 5 5 5 2 rfl rfl⟩

/-- C6: starting a cache group while a capture is in flight fails with the
nested-capture error immediately and leaves the state unchanged — no
partial capture begins.  This holds both for `CachedRenderer.cacheGroup`
(guard on `currentCacheId`) and for `CacheManager.startCacheGroup` (guard on
`isInCacheGroup`), whose guards run before any mutation. -/
theorem c6_nested_capture_fails_fast (e : EState) (cid : String)
    (cacheId : String) (w h : ℚ) (body : List Cmd) (m : CMState)
    (hr : e.rend.currentCacheId = some cid) (hm : m.isInCacheGroup = true) :
    rendererCacheGroup cacheId w h body e = (e, some .nestedCapture, false) ∧
      cmStartCacheGroup cacheId w h m = (m, some .nestedCapture, false) := by
  constructor
  · simp [rendererCacheGroup, hr]
  · simp [cmStartCacheGroup, hm]

/-- C6 witness: a renderer mid-capture of `"g"` and a manager with the flag
set both reject a new group for `"h2"` without a state change. -/
theorem c6_nested_capture_fails_fast_witness :
    (let e : EState :=
       { initEState 3 with rend := { initRState 3 with currentCacheId := some "g" } }
     let m : CMState :=
       { cache := { cmap := [], cfbs := [], csizes := [], corder := [] },
         maxCacheItems := 3, isInCacheGroup := true, currentCacheId := some "g",
         isUsingExistingCache := false, nextHandle := 0 }
     e.rend.currentCacheId = some "g" ∧ m.isInCacheGroup = true ∧
       (rendererCacheGroup "h2" 10 10 [] e = (e, some .nestedCapture, false) ∧
         cmStartCacheGroup "h2" 10 10 m = (m, some .nestedCapture, false))) := by
  exact ⟨rfl, rfl, c6_nested_capture_fails_fast _ "g" "h2" 10 10 [] _ rfl rfl⟩

/-- C10: during capture, playing back cached content is inert.
`drawCachedTexture` returns the state unchanged, and the engine-level
`drawCachedContent` leaves the batch cursor, both capture-scratch buffers
and the segment list untouched (it may still reorder the LRU access list,
which the claim does not constrain). -/
theorem c10_no_playback_during_capture (e : EState) (cid : String)
    (handle : Nat) (w h x y : ℚ) (cacheId : String)
    (hr : e.rend.currentCacheId = some cid) :
    drawCachedTexture handle w h x y e.rend = e.rend ∧
      (let e1 := engineDrawCachedContent cacheId x y e
       e1.rend.bufferCounter = e.rend.bufferCounter ∧
         e1.rend.bufferPointer = e.rend.bufferPointer ∧
         e1.rend.segments = e.rend.segments ∧
         e1.rend.cacheVertexBuffer = e.rend.cacheVertexBuffer ∧
         e1.rend.cacheTexcoordBuffer = e.rend.cacheTexcoordBuffer ∧
         e1.rend.batchLog = e.rend.batchLog) := by
  have hdct : ∀ (h2 : Nat) (a b c d : ℚ) (r : RState),
      r.currentCacheId = some cid → drawCachedTexture h2 a b c d r = r := by
    intro h2 a b c d r hcc
    simp [drawCachedTexture, hcc]
  have hgdp : ∀ (s : String) (r : RState),
      (getCachedData s r).2.currentCacheId = r.currentCacheId ∧
        (getCachedData s r).2.bufferCounter = r.bufferCounter ∧
        (getCachedData s r).2.bufferPointer = r.bufferPointer ∧
        (getCachedData s r).2.segments = r.segments ∧
        (getCachedData s r).2.cacheVertexBuffer = r.cacheVertexBuffer ∧
        (getCachedData s r).2.cacheTexcoordBuffer = r.cacheTexcoordBuffer ∧
        (getCachedData s r).2.batchLog = r.batchLog := by
    intro s r
    unfold getCachedData
    rcases hm : r.cache.cmap.lookup s with _ | t <;>
      rcases hs : r.cache.csizes.lookup s with _ | sz <;> simp
  refine ⟨hdct handle w h x y e.rend hr, ?_⟩
  unfold engineDrawCachedContent
  split
  · simp
  split
  · simp
  rcases hgd : getCachedData cacheId e.rend with ⟨d, r1⟩
  have hp := hgdp cacheId e.rend
  rw [hgd] at hp
  rcases d with _ | ⟨t, cw, ch⟩
  · simpa [hgd] using ⟨hp.2.1, hp.2.2.1, hp.2.2.2.1, hp.2.2.2.2.1,
      hp.2.2.2.2.2.1, hp.2.2.2.2.2.2⟩
  · have hr1 : r1.currentCacheId = some cid := by rw [hp.1]; exact hr
    simp only [hgd]
    rw [hdct t cw ch (x + e.offsetX) (y + e.offsetY) r1 hr1]
    exact ⟨hp.2.1, hp.2.2.1, hp.2.2.2.1, hp.2.2.2.2.1,
      hp.2.2.2.2.2.1, hp.2.2.2.2.2.2⟩

/-- C10 witness: a concrete renderer capturing `"g"` with `"X"` cached. -/
theorem c10_no_playback_during_capture_witness :
    (let e : EState :=
       { initEState 3 with rend :=
         { initRState 3 with
           currentCacheId := some "g",
           cache := { cmap := [("X", 7)], cfbs := [("X", 8)],
                      csizes := [("X", (20, 20))], corder := ["X"] } } }
     e.rend.currentCacheId = some "g" ∧
       (drawCachedTexture 7 20 20 1 2 e.rend = e.rend ∧
         (let e1 := engineDrawCachedContent "X" 1 2 e
          e1.rend.bufferCounter = e.rend.bufferCounter ∧
            e1.rend.bufferPointer = e.rend.bufferPointer ∧
            e1.rend.segments = e.rend.segments ∧
            e1.rend.cacheVertexBuffer = e.rend.cacheVertexBuffer ∧
            e1.rend.cacheTexcoordBuffer = e.rend.cacheTexcoordBuffer ∧
            e1.rend.batchLog = e.rend.batchLog))) :=
  ⟨rfl, c10_no_playback_during_capture _ "g" 7 20 20 1 2 "X" rfl⟩

/-- Running a concatenated command list runs the two halves in sequence,
stopping at the first thrown error. -/
theorem runBody_append (s t : List Cmd) (e : EState) :
    runBody (s ++ t) e =
      match runBody s e with
      | (e1, none) => runBody t e1
      | (e1, some er) => (e1, some er) := by
  induction s generalizing e with
  | nil => simp [runBody]
  | cons c cs ih =>
      simp only [List.cons_append, runBody]
      rcases runSimple c e with ⟨e1, _ | er⟩
      · exact ih e1
      · rfl

/-- The balanced `startGroup`/`endGroup` sequences: empty, a balanced
sequence wrapped in one matching pair, or two balanced sequences in a row. -/
inductive BalancedSeq : List Cmd → Prop
  | nil : BalancedSeq []
  | wrap (dx dy : ℚ) (s : List Cmd) :
      BalancedSeq s → BalancedSeq (Cmd.startGroup dx dy :: (s ++ [Cmd.endGroup]))
  | seq (s t : List Cmd) : BalancedSeq s → BalancedSeq t → BalancedSeq (s ++ t)

/-- C8: a balanced sequence of `startGroup`/`endGroup` calls returns the
engine to exactly its prior state — in particular the scalar offset equals
its pre-sequence value — and `endGroup()` with an empty group stack always
fails with the no-group-to-end error. -/
theorem c8_balanced_groups_restore_offset (s : List Cmd) (e : EState) :
    (BalancedSeq s → runBody s e = (e, none)) ∧
      (e.offsetGroups = [] → runSimple Cmd.endGroup e = (e, some .noGroupToEnd)) := by
  constructor
  · intro hb
    induction hb generalizing e with
    | nil => rfl
    | wrap dx dy s hs ih =>
        simp only [runBody, runSimple]
        rw [runBody_append]
        rw [ih]
        simp [runBody, runSimple]
    | seq s t hs ht ihs iht =>
        rw [runBody_append, ihs e]
        exact iht e
  · intro hg
    simp [runSimple, hg]

/-- C8 witness: the pair `startGroup(1, 2); endGroup()` restores a fresh
engine, and `endGroup()` on the fresh engine (empty stack) fails. -/
theorem c8_balanced_groups_restore_offset_witness :
    BalancedSeq [Cmd.startGroup 1 2, Cmd.endGroup] ∧
      runBody [Cmd.startGroup 1 2, Cmd.endGroup] (initEState 3) = (initEState 3, none) ∧
      ((initEState 3).offsetGroups = [] ∧
        runSimple Cmd.endGroup (initEState 3) = (initEState 3, some .noGroupToEnd)) :=
  ⟨BalancedSeq.wrap 1 2 [] BalancedSeq.nil,
   (c8_balanced_groups_restore_offset [Cmd.startGroup 1 2, Cmd.endGroup]
      (initEState 3)).1 (BalancedSeq.wrap 1 2 [] BalancedSeq.nil),
   rfl,
   (c8_balanced_groups_restore_offset [Cmd.startGroup 1 2, Cmd.endGroup]
      (initEState 3)).2 rfl⟩

/-- A fresh frame on a caching engine that already holds a cache entry
`"X"` (texture handle 7, size 20×20). -/
def c3Init : EState :=
  { initEState 50 with rend :=
    { initRState 50 with
      cache := { cmap := [("X", 7)], cfbs := [("X", 8)],
                 csizes := [("X", (20, 20))], corder := ["X"] } } }

/-- C3: a frame issuing `[sprite, sprite, cached(X), sprite, cached(X)]`
outside capture records exactly 4 segments with sources
`[SpriteSheet, X, SpriteSheet, X]`, contiguous and non-overlapping
(`0–12, 12–18, 18–24, 24–30` vertices), whose ranges sum to the 30 appended
vertices, and the frame flush issues one draw call per segment: 4 draw
calls = 3 texture transitions + 1. -/
theorem c3_segment_replay (x1 y1 x2 y2 x3 y3 cx1 cy1 cx2 cy2 sx sy sw sh : ℚ) :
    (let run := runBody
        [Cmd.sprite x1 y1 16 16 sx sy sw sh,
         Cmd.sprite x2 y2 16 16 sx sy sw sh,
         Cmd.cached "X" cx1 cy1,
         Cmd.sprite x3 y3 16 16 sx sy sw sh,
         Cmd.cached "X" cx2 cy2] c3Init
     run.2 = none ∧
       (let r := closeFrameSegments run.1.rend
        r.segments.reverse =
            [⟨.sheet, 0, some 12⟩, ⟨.tex 7, 12, some 18⟩,
             ⟨.sheet, 18, some 24⟩, ⟨.tex 7, 24, some 30⟩] ∧
          (renderWithPostProcessing run.1.rend).2 =
            [(.sheet, 0, 12), (.tex 7, 12, 6), (.sheet, 18, 6), (.tex 7, 24, 6)] ∧
          run.1.rend.bufferCounter = 60 ∧
          (((renderWithPostProcessing run.1.rend).2.map
              (fun d => d.2.2)).sum = run.1.rend.bufferCounter / 2) ∧
          (renderWithPostProcessing run.1.rend).2.length = 3 + 1)) := by
  simp [runBody, runSimple, crDrawSprite, ensureSegment, baseDrawSprite,
        writePositions, writeTexcoords, recordAppend, engineDrawCachedContent,
        hasCachedContent, getCachedData, updateAccessOrder, drawCachedTexture,
        resetBuffers, closeFrameSegments, segmentDraws, closeHeadSeg,
        renderWithPostProcessing, c3Init, initEState, initRState,
        renderVertexBuffer, List.lookup]

@[simp] theorem writePositions_bufferSize (r : RState) (off : Nat) (vs : List ℚ) :
    (writePositions r off vs).bufferSize = r.bufferSize := by
  unfold writePositions; split_ifs <;> rfl

@[simp] theorem writePositions_bufferCounter (r : RState) (off : Nat) (vs : List ℚ) :
    (writePositions r off vs).bufferCounter = r.bufferCounter := by
  unfold writePositions; split_ifs <;> rfl

@[simp] theorem writePositions_bufferPointer (r : RState) (off : Nat) (vs : List ℚ) :
    (writePositions r off vs).bufferPointer = r.bufferPointer := by
  unfold writePositions; split_ifs <;> rfl

@[simp] theorem writePositions_batchLog (r : RState) (off : Nat) (vs : List ℚ) :
    (writePositions r off vs).batchLog = r.batchLog := by
  unfold writePositions; split_ifs <;> rfl

@[simp] theorem writePositions_usingScratch (r : RState) (off : Nat) (vs : List ℚ) :
    (writePositions r off vs).usingScratch = r.usingScratch := by
  unfold writePositions; split_ifs <;> rfl

@[simp] theorem writeTexcoords_bufferSize (r : RState) (off : Nat) (vs : List ℚ) :
    (writeTexcoords r off vs).bufferSize = r.bufferSize := by
  unfold writeTexcoords; split_ifs <;> rfl

@[simp] theorem writeTexcoords_bufferCounter (r : RState) (off : Nat) (vs : List ℚ) :
    (writeTexcoords r off vs).bufferCounter = r.bufferCounter := by
  unfold writeTexcoords; split_ifs <;> rfl

@[simp] theorem writeTexcoords_bufferPointer (r : RState) (off : Nat) (vs : List ℚ) :
    (writeTexcoords r off vs).bufferPointer = r.bufferPointer := by
  unfold writeTexcoords; split_ifs <;> rfl

@[simp] theorem writeTexcoords_batchLog (r : RState) (off : Nat) (vs : List ℚ) :
    (writeTexcoords r off vs).batchLog = r.batchLog := by
  unfold writeTexcoords; split_ifs <;> rfl

@[simp] theorem writeTexcoords_usingScratch (r : RState) (off : Nat) (vs : List ℚ) :
    (writeTexcoords r off vs).usingScratch = r.usingScratch := by
  unfold writeTexcoords; split_ifs <;> rfl

@[simp] theorem ensureSegment_bufferSize (t : TexSrc) (r : RState) :
    (ensureSegment t r).bufferSize = r.bufferSize := by
  unfold ensureSegment; split_ifs <;> rfl

@[simp] theorem ensureSegment_bufferCounter (t : TexSrc) (r : RState) :
    (ensureSegment t r).bufferCounter = r.bufferCounter := by
  unfold ensureSegment; split_ifs <;> rfl

@[simp] theorem ensureSegment_bufferPointer (t : TexSrc) (r : RState) :
    (ensureSegment t r).bufferPointer = r.bufferPointer := by
  unfold ensureSegment; split_ifs <;> rfl

@[simp] theorem ensureSegment_batchLog (t : TexSrc) (r : RState) :
    (ensureSegment t r).batchLog = r.batchLog := by
  unfold ensureSegment; split_ifs <;> rfl

@[simp] theorem ensureSegment_usingScratch (t : TexSrc) (r : RState) :
    (ensureSegment t r).usingScratch = r.usingScratch := by
  unfold ensureSegment; split_ifs <;> rfl

/-- Shared overflow behaviour of `baseDrawSprite`: the size is unchanged,
the new counter stays within the size, and the log grows only by events
whose appends fit (`n + 12 ≤ size`). -/
theorem baseDrawSprite_batch (x y w h sx sy sw sh : ℚ) (r : RState)
    (hc : r.bufferCounter ≤ r.bufferSize) (h12 : 12 ≤ r.bufferSize) :
    (baseDrawSprite x y w h sx sy sw sh r).bufferSize = r.bufferSize ∧
      (baseDrawSprite x y w h sx sy sw sh r).bufferCounter ≤ r.bufferSize ∧
      ∃ L, (baseDrawSprite x y w h sx sy sw sh r).batchLog = L ++ r.batchLog ∧
        ∀ n s, BatchEv.append s n ∈ L → n + 12 ≤ r.bufferSize := by
  unfold baseDrawSprite
  by_cases hov : r.bufferCounter + 12 > r.bufferSize
  · simp only [if_pos hov, renderVertexBuffer, recordAppend]
    refine ⟨by simp, by simpa using h12, ?_⟩
    refine ⟨[.append r.usingScratch 0, .flush r.usingScratch r.bufferCounter],
      by simp, ?_⟩
    intro n s hn
    simp only [List.mem_cons, List.not_mem_nil, or_false] at hn
    rcases hn with h1 | h1
    · injection h1 with hs hn0
      omega
    · simp at h1
  · simp only [if_neg hov, recordAppend]
    refine ⟨by simp, by simp; omega, ?_⟩
    refine ⟨[.append r.usingScratch r.bufferCounter], by simp, ?_⟩
    intro n s hn
    simp only [List.mem_cons, List.not_mem_nil, or_false] at hn
    injection hn with hs hn0
    omega

/-- Same as `baseDrawSprite_batch` for the line appender. -/
theorem baseDrawLine_batch (x1 y1 x2 y2 sx sy sw sh t : ℚ) (r : RState)
    (hc : r.bufferCounter ≤ r.bufferSize) (h12 : 12 ≤ r.bufferSize) :
    (baseDrawLine x1 y1 x2 y2 sx sy sw sh t r).bufferSize = r.bufferSize ∧
      (baseDrawLine x1 y1 x2 y2 sx sy sw sh t r).bufferCounter ≤ r.bufferSize ∧
      ∃ L, (baseDrawLine x1 y1 x2 y2 sx sy sw sh t r).batchLog = L ++ r.batchLog ∧
        ∀ n s, BatchEv.append s n ∈ L → n + 12 ≤ r.bufferSize := by
  unfold baseDrawLine
  by_cases hov : r.bufferCounter + 12 > r.bufferSize
  · simp only [if_pos hov, renderVertexBuffer, recordAppend]
    refine ⟨by simp, by simpa using h12, ?_⟩
    refine ⟨[.append r.usingScratch 0, .flush r.usingScratch r.bufferCounter],
      by simp, ?_⟩
    intro n s hn
    simp only [List.mem_cons, List.not_mem_nil, or_false] at hn
    rcases hn with h1 | h1
    · injection h1 with hs hn0
      omega
    · simp at h1
  · simp only [if_neg hov, recordAppend]
    refine ⟨by simp, by simp; omega, ?_⟩
    refine ⟨[.append r.usingScratch r.bufferCounter], by simp, ?_⟩
    intro n s hn
    simp only [List.mem_cons, List.not_mem_nil, or_false] at hn
    injection hn with hs hn0
    omega

/-- Same for the cached-quad appender, whose two extra `ensureSegment`
calls and `resetBuffers` do not disturb the cursor accounting. -/
theorem drawCachedTexture_batch (handle : Nat) (w h x y : ℚ) (r : RState)
    (hc : r.bufferCounter ≤ r.bufferSize) (h12 : 12 ≤ r.bufferSize) :
    (drawCachedTexture handle w h x y r).bufferSize = r.bufferSize ∧
      (drawCachedTexture handle w h x y r).bufferCounter ≤ r.bufferSize ∧
      ∃ L, (drawCachedTexture handle w h x y r).batchLog = L ++ r.batchLog ∧
        ∀ n s, BatchEv.append s n ∈ L → n + 12 ≤ r.bufferSize := by
  unfold drawCachedTexture
  by_cases hcc : r.currentCacheId.isSome
  · rw [if_pos hcc]
    refine ⟨rfl, hc, ⟨[], by simp, ?_⟩⟩
    intro n s hn
    simp at hn
  · simp only [if_neg hcc]
    by_cases hov : (ensureSegment (.tex handle) r).bufferCounter + 12 >
        (ensureSegment (.tex handle) r).bufferSize
    · simp only [if_pos hov, renderVertexBuffer, resetBuffers, recordAppend]
      refine ⟨by simp, by simpa using h12, ?_⟩
      refine ⟨[.append r.usingScratch 0, .flush r.usingScratch r.bufferCounter],
        by simp, ?_⟩
      intro n s hn
      simp only [List.mem_cons, List.not_mem_nil, or_false] at hn
      rcases hn with h1 | h1
      · injection h1 with hs hn0
        omega
      · simp at h1
    · simp only [if_neg hov, recordAppend]
      simp only [ensureSegment_bufferCounter, ensureSegment_bufferSize] at hov
      refine ⟨by simp, by simp; omega, ?_⟩
      refine ⟨[.append r.usingScratch r.bufferCounter], by simp, ?_⟩
      intro n s hn
      simp only [List.mem_cons, List.not_mem_nil, or_false] at hn
      injection hn with hs hn0
      omega

/-- `getCachedData` only touches the access order: all batch-related fields
of the returned state are unchanged. -/
theorem getCachedData_batch_fields (s : String) (r : RState) :
    (getCachedData s r).2.bufferSize = r.bufferSize ∧
      (getCachedData s r).2.bufferCounter = r.bufferCounter ∧
      (getCachedData s r).2.batchLog = r.batchLog ∧
      (getCachedData s r).2.currentCacheId = r.currentCacheId := by
  unfold getCachedData
  rcases hm : r.cache.cmap.lookup s with _ | t <;>
    rcases hs : r.cache.csizes.lookup s with _ | sz <;> simp

/-- One engine command preserves the batch-cursor invariant: the buffer size
is unchanged, the cursor stays within the size, and every appended quad was
logged at a cursor that left room for its 12 floats. -/
theorem runSimple_batch (c : Cmd) (e : EState)
    (hc : e.rend.bufferCounter ≤ e.rend.bufferSize)
    (h12 : 12 ≤ e.rend.bufferSize) :
    (runSimple c e).1.rend.bufferSize = e.rend.bufferSize ∧
      (runSimple c e).1.rend.bufferCounter ≤ e.rend.bufferSize ∧
      ∃ L, (runSimple c e).1.rend.batchLog = L ++ e.rend.batchLog ∧
        ∀ n s, BatchEv.append s n ∈ L → n + 12 ≤ e.rend.bufferSize := by
  cases c with
  | sprite x y w h sx sy sw sh =>
      simp only [runSimple, crDrawSprite]
      set r0 := if e.rend.currentCacheId = none then ensureSegment .sheet e.rend
                else e.rend with hr0
      have h0size : r0.bufferSize = e.rend.bufferSize := by
        rw [hr0]; split_ifs <;> simp
      have h0cnt : r0.bufferCounter = e.rend.bufferCounter := by
        rw [hr0]; split_ifs <;> simp
      have h0log : r0.batchLog = e.rend.batchLog := by
        rw [hr0]; split_ifs <;> simp
      obtain ⟨hs1, hcnt, L, hL, hLa⟩ :=
        baseDrawSprite_batch (x + e.offsetX) (y + e.offsetY) w h sx sy sw sh r0
          (by rw [h0cnt, h0size]; exact hc) (by rw [h0size]; exact h12)
      refine ⟨by simpa [h0size] using hs1, by simpa [h0size] using hcnt,
        L, by simpa [h0log] using hL, ?_⟩
      intro n s hn
      have := hLa n s hn
      rwa [h0size] at this
  | line x1 y1 x2 y2 sx sy sw sh t =>
      simp only [runSimple, crDrawLine]
      set r0 := if e.rend.currentCacheId = none then ensureSegment .sheet e.rend
                else e.rend with hr0
      have h0size : r0.bufferSize = e.rend.bufferSize := by
        rw [hr0]; split_ifs <;> simp
      have h0cnt : r0.bufferCounter = e.rend.bufferCounter := by
        rw [hr0]; split_ifs <;> simp
      have h0log : r0.batchLog = e.rend.batchLog := by
        rw [hr0]; split_ifs <;> simp
      obtain ⟨hs1, hcnt, L, hL, hLa⟩ :=
        baseDrawLine_batch (x1 + e.offsetX) (y1 + e.offsetY) (x2 + e.offsetX)
          (y2 + e.offsetY) sx sy sw sh t r0
          (by rw [h0cnt, h0size]; exact hc) (by rw [h0size]; exact h12)
      refine ⟨by simpa [h0size] using hs1, by simpa [h0size] using hcnt,
        L, by simpa [h0log] using hL, ?_⟩
      intro n s hn
      have := hLa n s hn
      rwa [h0size] at this
  | cached cacheId x y =>
      simp only [runSimple]
      unfold engineDrawCachedContent
      split
      · exact ⟨rfl, hc, ⟨[], by simp, by intro n s hn; simp at hn⟩⟩
      split
      · exact ⟨rfl, hc, ⟨[], by simp, by intro n s hn; simp at hn⟩⟩
      rcases hgd : getCachedData cacheId e.rend with ⟨d, r1⟩
      have hp := getCachedData_batch_fields cacheId e.rend
      rw [hgd] at hp
      dsimp only at hp
      obtain ⟨hp1, hp2, hp3, _⟩ := hp
      rcases d with _ | ⟨t, cw, ch⟩
      · simp only [hgd]
        exact ⟨hp1, by rw [hp2]; exact hc,
          ⟨[], by simp [hp3], by intro n s hn; simp at hn⟩⟩
      · simp only [hgd]
        obtain ⟨hs1, hcnt, L, hL, hLa⟩ :=
          drawCachedTexture_batch t cw ch (x + e.offsetX) (y + e.offsetY) r1
            (by rw [hp2, hp1]; exact hc) (by rw [hp1]; exact h12)
        refine ⟨by rw [hs1, hp1], by rw [hp1] at hcnt; exact hcnt,
          L, by rw [hL, hp3], ?_⟩
        intro n s hn
        have := hLa n s hn
        rwa [hp1] at this
  | startGroup dx dy =>
      exact ⟨rfl, hc, ⟨[], by simp [runSimple], by intro n s hn; simp at hn⟩⟩
  | endGroup =>
      rcases hg : e.offsetGroups with _ | ⟨⟨dx, dy⟩, rest⟩
      · exact ⟨by simp [runSimple, hg], by simp [runSimple, hg]; exact hc,
          ⟨[], by simp [runSimple, hg], by intro n s hn; simp at hn⟩⟩
      · exact ⟨by simp [runSimple, hg], by simp [runSimple, hg]; exact hc,
          ⟨[], by simp [runSimple, hg], by intro n s hn; simp at hn⟩⟩
  | throwErr =>
      exact ⟨rfl, hc, ⟨[], by simp [runSimple], by intro n s hn; simp at hn⟩⟩

/-- The batch-cursor invariant extends over whole command lists. -/
theorem runBody_batch (cmds : List Cmd) (e : EState)
    (hc : e.rend.bufferCounter ≤ e.rend.bufferSize)
    (h12 : 12 ≤ e.rend.bufferSize) :
    (runBody cmds e).1.rend.bufferSize = e.rend.bufferSize ∧
      (runBody cmds e).1.rend.bufferCounter ≤ e.rend.bufferSize ∧
      ∃ L, (runBody cmds e).1.rend.batchLog = L ++ e.rend.batchLog ∧
        ∀ n s, BatchEv.append s n ∈ L → n + 12 ≤ e.rend.bufferSize := by
  induction cmds generalizing e with
  | nil =>
      exact ⟨rfl, hc, ⟨[], by simp [runBody], by intro n s hn; simp at hn⟩⟩
  | cons c cs ih =>
      obtain ⟨h1, h2, L1, hL1, hA1⟩ := runSimple_batch c e hc h12
      simp only [runBody]
      rcases hrs : runSimple c e with ⟨e1, er⟩
      rw [hrs] at h1 h2 hL1
      dsimp only at h1 h2 hL1
      cases er with
      | none =>
          obtain ⟨g1, g2, L2, hL2, hA2⟩ := ih e1
            (by rw [h1]; exact h2)
            (by rw [h1]; exact h12)
          refine ⟨by rw [g1, h1], by rw [h1] at g2; exact g2,
            L2 ++ L1, ?_, ?_⟩
          · rw [hL2, hL1, List.append_assoc]
          · intro n s hn
            rcases List.mem_append.mp hn with h | h
            · have := hA2 n s h
              rwa [h1] at this
            · exact hA1 n s h
      | some er => exact ⟨h1, h2, L1, hL1, hA1⟩

/-- C7: for any sequence of quad appends (sprite, line and cached-quad
draws, plus any other engine commands), the write cursor `bufferCounter`
never exceeds `bufferSize` at any observable point (after every command
prefix), every appended quad was logged at a cursor with room for its 12
floats, and an append that would otherwise overflow is immediately preceded
by a flush (upload + draw + cursor reset), shown here for the sprite
appender: the log gains exactly `[flush, append at 0]` in that
chronological order. -/
theorem c7_batch_cursor_never_overflows (cmds : List Cmd) (e : EState)
    (hc : e.rend.bufferCounter ≤ e.rend.bufferSize)
    (h12 : 12 ≤ e.rend.bufferSize) :
    (∀ p q, cmds = p ++ q →
        (runBody p e).1.rend.bufferCounter ≤ e.rend.bufferSize) ∧
      (∃ L, (runBody cmds e).1.rend.batchLog = L ++ e.rend.batchLog ∧
        ∀ n s, BatchEv.append s n ∈ L → n + 12 ≤ e.rend.bufferSize) ∧
      (∀ x y w h sx sy sw sh : ℚ,
        e.rend.bufferCounter + 12 > e.rend.bufferSize →
        (runSimple (.sprite x y w h sx sy sw sh) e).1.rend.batchLog =
          .append e.rend.usingScratch 0 ::
            .flush e.rend.usingScratch e.rend.bufferCounter ::
              e.rend.batchLog) := by
  refine ⟨?_, (runBody_batch cmds e hc h12).2.2, ?_⟩
  · intro p q _
    exact (runBody_batch p e hc h12).2.1
  · intro x y w h sx sy sw sh hov
    simp only [runSimple, crDrawSprite]
    set r0 := if e.rend.currentCacheId = none then ensureSegment .sheet e.rend
              else e.rend with hr0
    have h0size : r0.bufferSize = e.rend.bufferSize := by
      rw [hr0]; split_ifs <;> simp
    have h0cnt : r0.bufferCounter = e.rend.bufferCounter := by
      rw [hr0]; split_ifs <;> simp
    have h0log : r0.batchLog = e.rend.batchLog := by
      rw [hr0]; split_ifs <;> simp
    have h0us : r0.usingScratch = e.rend.usingScratch := by
      rw [hr0]; split_ifs <;> simp
    unfold baseDrawSprite
    rw [if_pos (by rw [h0cnt, h0size]; exact hov)]
    simp [renderVertexBuffer, recordAppend, h0log, h0us, h0cnt]

/-- C7 witness: a 2-quad buffer (`bufferSize = 24`) receiving three sprite
draws stays within bounds at every prefix, and the third draw (which would
overflow) flushes first. -/
theorem c7_batch_cursor_never_overflows_witness :
    (let e : EState :=
       { initEState 3 with rend := { initRState 3 with bufferSize := 24 } }
     let cmds := [Cmd.sprite 0 0 4 4 0 0 4 4, Cmd.sprite 1 0 4 4 0 0 4 4,
                  Cmd.sprite 2 0 4 4 0 0 4 4]
     e.rend.bufferCounter ≤ e.rend.bufferSize ∧ 12 ≤ e.rend.bufferSize ∧
       ((∀ p q, cmds = p ++ q →
           (runBody p e).1.rend.bufferCounter ≤ e.rend.bufferSize) ∧
         (∃ L, (runBody cmds e).1.rend.batchLog = L ++ e.rend.batchLog ∧
           ∀ n s, BatchEv.append s n ∈ L → n + 12 ≤ e.rend.bufferSize) ∧
         (∀ x y w h sx sy sw sh : ℚ,
           e.rend.bufferCounter + 12 > e.rend.bufferSize →
           (runSimple (.sprite x y w h sx sy sw sh) e).1.rend.batchLog =
             .append e.rend.usingScratch 0 ::
               .flush e.rend.usingScratch e.rend.bufferCounter ::
                 e.rend.batchLog))) :=
  ⟨by decide, by decide,
   c7_batch_cursor_never_overflows _ _ (by decide) (by decide)⟩

@[simp] theorem ensureSegment_cache (t : TexSrc) (r : RState) :
    (ensureSegment t r).cache = r.cache := by
  unfold ensureSegment; split_ifs <;> rfl

@[simp] theorem ensureSegment_currentCacheId (t : TexSrc) (r : RState) :
    (ensureSegment t r).currentCacheId = r.currentCacheId := by
  unfold ensureSegment; split_ifs <;> rfl

@[simp] theorem ensureSegment_maxCacheItems (t : TexSrc) (r : RState) :
    (ensureSegment t r).maxCacheItems = r.maxCacheItems := by
  unfold ensureSegment; split_ifs <;> rfl

@[simp] theorem ensureSegment_mainVertexBuffer (t : TexSrc) (r : RState) :
    (ensureSegment t r).mainVertexBuffer = r.mainVertexBuffer := by
  unfold ensureSegment; split_ifs <;> rfl

@[simp] theorem ensureSegment_mainTexcoordBuffer (t : TexSrc) (r : RState) :
    (ensureSegment t r).mainTexcoordBuffer = r.mainTexcoordBuffer := by
  unfold ensureSegment; split_ifs <;> rfl

@[simp] theorem writePositions_cache (r : RState) (off : Nat) (vs : List ℚ) :
    (writePositions r off vs).cache = r.cache := by
  unfold writePositions; split_ifs <;> rfl

@[simp] theorem writePositions_currentCacheId (r : RState) (off : Nat) (vs : List ℚ) :
    (writePositions r off vs).currentCacheId = r.currentCacheId := by
  unfold writePositions; split_ifs <;> rfl

@[simp] theorem writePositions_maxCacheItems (r : RState) (off : Nat) (vs : List ℚ) :
    (writePositions r off vs).maxCacheItems = r.maxCacheItems := by
  unfold writePositions; split_ifs <;> rfl

@[simp] theorem writePositions_mainTexcoordBuffer (r : RState) (off : Nat) (vs : List ℚ) :
    (writePositions r off vs).mainTexcoordBuffer = r.mainTexcoordBuffer := by
  unfold writePositions; split_ifs <;> rfl

theorem writePositions_mainVertexBuffer_of_scratch (r : RState) (off : Nat)
    (vs : List ℚ) (h : r.usingScratch = true) :
    (writePositions r off vs).mainVertexBuffer = r.mainVertexBuffer := by
  unfold writePositions; rw [if_pos h]

@[simp] theorem writeTexcoords_cache (r : RState) (off : Nat) (vs : List ℚ) :
    (writeTexcoords r off vs).cache = r.cache := by
  unfold writeTexcoords; split_ifs <;> rfl

@[simp] theorem writeTexcoords_currentCacheId (r : RState) (off : Nat) (vs : List ℚ) :
    (writeTexcoords r off vs).currentCacheId = r.currentCacheId := by
  unfold writeTexcoords; split_ifs <;> rfl

@[simp] theorem writeTexcoords_maxCacheItems (r : RState) (off : Nat) (vs : List ℚ) :
    (writeTexcoords r off vs).maxCacheItems = r.maxCacheItems := by
  unfold writeTexcoords; split_ifs <;> rfl

@[simp] theorem writeTexcoords_mainVertexBuffer (r : RState) (off : Nat) (vs : List ℚ) :
    (writeTexcoords r off vs).mainVertexBuffer = r.mainVertexBuffer := by
  unfold writeTexcoords; split_ifs <;> rfl

theorem writeTexcoords_mainTexcoordBuffer_of_scratch (r : RState) (off : Nat)
    (vs : List ℚ) (h : r.usingScratch = true) :
    (writeTexcoords r off vs).mainTexcoordBuffer = r.mainTexcoordBuffer := by
  unfold writeTexcoords; rw [if_pos h]

/-- Which buffer a ghost event was issued against. -/
def BatchEv.evScratch : BatchEv → Bool
  | .flush s _ => s
  | .append s _ => s

/-- A position write followed by a texture-coordinate write leaves the main
CPU buffers alone whenever the scratch buffers are active. -/
theorem writes_main_preserved (r : RState) (off1 off2 : Nat)
    (vs1 vs2 : List ℚ) (h : r.usingScratch = true) :
    (writeTexcoords (writePositions r off1 vs1) off2 vs2).mainVertexBuffer =
        r.mainVertexBuffer ∧
      (writeTexcoords (writePositions r off1 vs1) off2 vs2).mainTexcoordBuffer =
        r.mainTexcoordBuffer := by
  unfold writePositions writeTexcoords
  simp [h]

/-- The sprite-sheet appenders and the cached-quad appender change nothing
in the registry, the capture flag, the capacity, or the main-frame CPU
buffers while the scratch buffers are active; their ghost events carry the
active-buffer flag.  These are the facts the `cacheGroup` theorems need
about an arbitrary callback body. -/
theorem baseDrawSprite_preserves (x y w h sx sy sw sh : ℚ) (r : RState) :
    (baseDrawSprite x y w h sx sy sw sh r).cache = r.cache ∧
      (baseDrawSprite x y w h sx sy sw sh r).currentCacheId = r.currentCacheId ∧
      (baseDrawSprite x y w h sx sy sw sh r).maxCacheItems = r.maxCacheItems ∧
      (baseDrawSprite x y w h sx sy sw sh r).usingScratch = r.usingScratch ∧
      (r.usingScratch = true →
        (baseDrawSprite x y w h sx sy sw sh r).mainVertexBuffer = r.mainVertexBuffer ∧
        (baseDrawSprite x y w h sx sy sw sh r).mainTexcoordBuffer = r.mainTexcoordBuffer) ∧
      ∃ L, (baseDrawSprite x y w h sx sy sw sh r).batchLog = L ++ r.batchLog ∧
        ∀ ev ∈ L, ev.evScratch = r.usingScratch := by
  unfold baseDrawSprite
  by_cases hov : r.bufferCounter + 12 > r.bufferSize
  · rw [if_pos hov]
    simp only [renderVertexBuffer, recordAppend]
    refine ⟨by simp, by simp, by simp, by simp, ?_, ?_⟩
    · intro h1
      exact writes_main_preserved _ _ _ _ _ (by simp [h1])
    · refine ⟨[.append r.usingScratch 0, .flush r.usingScratch r.bufferCounter],
        by simp, ?_⟩
      intro ev hev
      simp only [List.mem_cons, List.not_mem_nil, or_false] at hev
      rcases hev with h1 | h1 <;> subst h1 <;> rfl
  · rw [if_neg hov]
    simp only [recordAppend]
    refine ⟨by simp, by simp, by simp, by simp, ?_, ?_⟩
    · intro h1
      exact writes_main_preserved _ _ _ _ _ (by simp [h1])
    · refine ⟨[.append r.usingScratch r.bufferCounter], by simp, ?_⟩
      intro ev hev
      simp only [List.mem_cons, List.not_mem_nil, or_false] at hev
      subst hev; rfl

/-- Same preservation facts for the line appender. -/
theorem baseDrawLine_preserves (x1 y1 x2 y2 sx sy sw sh t : ℚ) (r : RState) :
    (baseDrawLine x1 y1 x2 y2 sx sy sw sh t r).cache = r.cache ∧
      (baseDrawLine x1 y1 x2 y2 sx sy sw sh t r).currentCacheId = r.currentCacheId ∧
      (baseDrawLine x1 y1 x2 y2 sx sy sw sh t r).maxCacheItems = r.maxCacheItems ∧
      (baseDrawLine x1 y1 x2 y2 sx sy sw sh t r).usingScratch = r.usingScratch ∧
      (r.usingScratch = true →
        (baseDrawLine x1 y1 x2 y2 sx sy sw sh t r).mainVertexBuffer = r.mainVertexBuffer ∧
        (baseDrawLine x1 y1 x2 y2 sx sy sw sh t r).mainTexcoordBuffer = r.mainTexcoordBuffer) ∧
      ∃ L, (baseDrawLine x1 y1 x2 y2 sx sy sw sh t r).batchLog = L ++ r.batchLog ∧
        ∀ ev ∈ L, ev.evScratch = r.usingScratch := by
  unfold baseDrawLine
  by_cases hov : r.bufferCounter + 12 > r.bufferSize
  · rw [if_pos hov]
    simp only [renderVertexBuffer, recordAppend]
    refine ⟨by simp, by simp, by simp, by simp, ?_, ?_⟩
    · intro h1
      exact writes_main_preserved _ _ _ _ _ (by simp [h1])
    · refine ⟨[.append r.usingScratch 0, .flush r.usingScratch r.bufferCounter],
        by simp, ?_⟩
      intro ev hev
      simp only [List.mem_cons, List.not_mem_nil, or_false] at hev
      rcases hev with h1 | h1 <;> subst h1 <;> rfl
  · rw [if_neg hov]
    simp only [recordAppend]
    refine ⟨by simp, by simp, by simp, by simp, ?_, ?_⟩
    · intro h1
      exact writes_main_preserved _ _ _ _ _ (by simp [h1])
    · refine ⟨[.append r.usingScratch r.bufferCounter], by simp, ?_⟩
      intro ev hev
      simp only [List.mem_cons, List.not_mem_nil, or_false] at hev
      subst hev; rfl

/-- Same preservation facts for the cached-quad appender (which also never
touches `cmap`/`csizes`; during capture it is a complete no-op). -/
theorem drawCachedTexture_preserves (handle : Nat) (w h x y : ℚ) (r : RState) :
    (drawCachedTexture handle w h x y r).cache = r.cache ∧
      (drawCachedTexture handle w h x y r).currentCacheId = r.currentCacheId ∧
      (drawCachedTexture handle w h x y r).maxCacheItems = r.maxCacheItems ∧
      (drawCachedTexture handle w h x y r).usingScratch = r.usingScratch ∧
      (r.usingScratch = true →
        (drawCachedTexture handle w h x y r).mainVertexBuffer = r.mainVertexBuffer ∧
        (drawCachedTexture handle w h x y r).mainTexcoordBuffer = r.mainTexcoordBuffer) ∧
      ∃ L, (drawCachedTexture handle w h x y r).batchLog = L ++ r.batchLog ∧
        ∀ ev ∈ L, ev.evScratch = r.usingScratch := by
  unfold drawCachedTexture
  by_cases hcc : r.currentCacheId.isSome
  · rw [if_pos hcc]
    exact ⟨rfl, rfl, rfl, rfl, fun _ => ⟨rfl, rfl⟩,
      ⟨[], by simp, by intro ev hev; simp at hev⟩⟩
  · rw [if_neg hcc]
    by_cases hov : (ensureSegment (.tex handle) r).bufferCounter + 12 >
        (ensureSegment (.tex handle) r).bufferSize
    · simp only [if_pos hov, renderVertexBuffer, resetBuffers, recordAppend]
      refine ⟨by simp, by simp, by simp, by simp, ?_, ?_⟩
      · intro h1
        constructor <;> simp [writePositions, writeTexcoords, h1]
      · refine ⟨[.append r.usingScratch 0, .flush r.usingScratch r.bufferCounter],
          by simp, ?_⟩
        intro ev hev
        simp only [List.mem_cons, List.not_mem_nil, or_false] at hev
        rcases hev with h1 | h1 <;> subst h1 <;> rfl
    · simp only [if_neg hov, recordAppend]
      refine ⟨by simp, by simp, by simp, by simp, ?_, ?_⟩
      · intro h1
        constructor <;> simp [writePositions, writeTexcoords, h1]
      · refine ⟨[.append r.usingScratch r.bufferCounter], by simp, ?_⟩
        intro ev hev
        simp only [List.mem_cons, List.not_mem_nil, or_false] at hev
        subst hev; rfl

/-- The engine commands that cannot throw: every draw entry point and
`startGroup` (`endGroup` can throw on an empty stack). -/
def Cmd.isSafe : Cmd → Bool
  | .sprite _ _ _ _ _ _ _ _ => true
  | .line _ _ _ _ _ _ _ _ _ => true
  | .cached _ _ _ => true
  | .startGroup _ _ => true
  | .endGroup => false
  | .throwErr => false

/-- `getCachedData` changes only the access order: the entry maps, capacity,
capture flag, scratch flag and main buffers of the returned state are those
of the input. -/
theorem getCachedData_registry_fields (s : String) (r : RState) :
    (getCachedData s r).2.cache.cmap = r.cache.cmap ∧
      (getCachedData s r).2.cache.csizes = r.cache.csizes ∧
      (getCachedData s r).2.maxCacheItems = r.maxCacheItems ∧
      (getCachedData s r).2.usingScratch = r.usingScratch ∧
      (getCachedData s r).2.mainVertexBuffer = r.mainVertexBuffer ∧
      (getCachedData s r).2.mainTexcoordBuffer = r.mainTexcoordBuffer := by
  unfold getCachedData
  rcases hm : r.cache.cmap.lookup s with _ | t <;>
    rcases hs : r.cache.csizes.lookup s with _ | sz <;>
      simp [updateAccessOrder] <;> split_ifs <;> simp

/-- `Engine.drawCachedContent` never changes the registry entry maps, the
capture flag, the capacity, the caching flag or the callback ghost log. -/
theorem engineDrawCachedContent_preserves (cacheId : String) (x y : ℚ)
    (e : EState) :
    (engineDrawCachedContent cacheId x y e).rend.currentCacheId =
        e.rend.currentCacheId ∧
      (engineDrawCachedContent cacheId x y e).rend.cache.cmap = e.rend.cache.cmap ∧
      (engineDrawCachedContent cacheId x y e).rend.cache.csizes =
        e.rend.cache.csizes ∧
      (engineDrawCachedContent cacheId x y e).rend.maxCacheItems =
        e.rend.maxCacheItems ∧
      (engineDrawCachedContent cacheId x y e).cbLog = e.cbLog ∧
      (engineDrawCachedContent cacheId x y e).cachingEnabled = e.cachingEnabled := by
  unfold engineDrawCachedContent
  split
  · exact ⟨rfl, rfl, rfl, rfl, rfl, rfl⟩
  split
  · exact ⟨rfl, rfl, rfl, rfl, rfl, rfl⟩
  rcases hgd : getCachedData cacheId e.rend with ⟨d, r1⟩
  have hp := getCachedData_registry_fields cacheId e.rend
  have hq := getCachedData_batch_fields cacheId e.rend
  rw [hgd] at hp hq
  dsimp only at hp hq
  rcases d with _ | ⟨t, cw, ch⟩
  · exact ⟨hq.2.2.2, hp.1, hp.2.1, hp.2.2.1, rfl, rfl⟩
  · obtain ⟨gca, gcc, gmx, _, _, _⟩ :=
      drawCachedTexture_preserves t cw ch (x + e.offsetX) (y + e.offsetY) r1
    exact ⟨by rw [gcc, hq.2.2.2], by rw [gca, hp.1], by rw [gca, hp.2.1],
      by rw [gmx, hp.2.2.1], rfl, rfl⟩

/-- A safe command never throws and leaves the registry entry maps, the
capture flag, the capacity, the caching flag and the callback ghost log
unchanged. -/
theorem runSimple_safe_preserves (c : Cmd) (e : EState) (hs : c.isSafe = true) :
    (runSimple c e).2 = none ∧
      (runSimple c e).1.rend.currentCacheId = e.rend.currentCacheId ∧
      (runSimple c e).1.rend.cache.cmap = e.rend.cache.cmap ∧
      (runSimple c e).1.rend.cache.csizes = e.rend.cache.csizes ∧
      (runSimple c e).1.rend.maxCacheItems = e.rend.maxCacheItems ∧
      (runSimple c e).1.cbLog = e.cbLog ∧
      (runSimple c e).1.cachingEnabled = e.cachingEnabled := by
  cases c with
  | sprite x y w h sx sy sw sh =>
      obtain ⟨hca, hcc2, hmx, _, _, _⟩ :=
        baseDrawSprite_preserves (x + e.offsetX) (y + e.offsetY) w h sx sy sw sh
          (if e.rend.currentCacheId = none then ensureSegment .sheet e.rend
           else e.rend)
      refine ⟨rfl, ?_, ?_, ?_, ?_, rfl, rfl⟩
      · show (crDrawSprite (x + e.offsetX) (y + e.offsetY) w h sx sy sw sh
            e.rend).currentCacheId = e.rend.currentCacheId
        unfold crDrawSprite
        rw [hcc2]; split_ifs <;> simp
      · show (crDrawSprite (x + e.offsetX) (y + e.offsetY) w h sx sy sw sh
            e.rend).cache.cmap = e.rend.cache.cmap
        unfold crDrawSprite
        rw [hca]; split_ifs <;> simp
      · show (crDrawSprite (x + e.offsetX) (y + e.offsetY) w h sx sy sw sh
            e.rend).cache.csizes = e.rend.cache.csizes
        unfold crDrawSprite
        rw [hca]; split_ifs <;> simp
      · show (crDrawSprite (x + e.offsetX) (y + e.offsetY) w h sx sy sw sh
            e.rend).maxCacheItems = e.rend.maxCacheItems
        unfold crDrawSprite
        rw [hmx]; split_ifs <;> simp
  | line x1 y1 x2 y2 sx sy sw sh t =>
      obtain ⟨hca, hcc2, hmx, _, _, _⟩ :=
        baseDrawLine_preserves (x1 + e.offsetX) (y1 + e.offsetY) (x2 + e.offsetX)
          (y2 + e.offsetY) sx sy sw sh t
          (if e.rend.currentCacheId = none then ensureSegment .sheet e.rend
           else e.rend)
      refine ⟨rfl, ?_, ?_, ?_, ?_, rfl, rfl⟩
      · show (crDrawLine (x1 + e.offsetX) (y1 + e.offsetY) (x2 + e.offsetX)
            (y2 + e.offsetY) sx sy sw sh t e.rend).currentCacheId =
            e.rend.currentCacheId
        unfold crDrawLine
        rw [hcc2]; split_ifs <;> simp
      · show (crDrawLine (x1 + e.offsetX) (y1 + e.offsetY) (x2 + e.offsetX)
            (y2 + e.offsetY) sx sy sw sh t e.rend).cache.cmap = e.rend.cache.cmap
        unfold crDrawLine
        rw [hca]; split_ifs <;> simp
      · show (crDrawLine (x1 + e.offsetX) (y1 + e.offsetY) (x2 + e.offsetX)
            (y2 + e.offsetY) sx sy sw sh t e.rend).cache.csizes =
            e.rend.cache.csizes
        unfold crDrawLine
        rw [hca]; split_ifs <;> simp
      · show (crDrawLine (x1 + e.offsetX) (y1 + e.offsetY) (x2 + e.offsetX)
            (y2 + e.offsetY) sx sy sw sh t e.rend).maxCacheItems =
            e.rend.maxCacheItems
        unfold crDrawLine
        rw [hmx]; split_ifs <;> simp
  | cached cacheId x y =>
      obtain ⟨g1, g2, g3, g4, g5, g6⟩ :=
        engineDrawCachedContent_preserves cacheId x y e
      exact ⟨rfl, g1, g2, g3, g4, g5, g6⟩
  | startGroup dx dy => exact ⟨rfl, rfl, rfl, rfl, rfl, rfl, rfl⟩
  | endGroup => simp [Cmd.isSafe] at hs
  | throwErr => simp [Cmd.isSafe] at hs

/-- A safe command list never throws and preserves the same fields. -/
theorem runBody_safe_preserves (cmds : List Cmd) (e : EState)
    (hs : cmds.all Cmd.isSafe = true) :
    (runBody cmds e).2 = none ∧
      (runBody cmds e).1.rend.currentCacheId = e.rend.currentCacheId ∧
      (runBody cmds e).1.rend.cache.cmap = e.rend.cache.cmap ∧
      (runBody cmds e).1.rend.cache.csizes = e.rend.cache.csizes ∧
      (runBody cmds e).1.rend.maxCacheItems = e.rend.maxCacheItems ∧
      (runBody cmds e).1.cbLog = e.cbLog ∧
      (runBody cmds e).1.cachingEnabled = e.cachingEnabled := by
  induction cmds generalizing e with
  | nil => exact ⟨rfl, rfl, rfl, rfl, rfl, rfl, rfl⟩
  | cons c cs ih =>
      rw [List.all_cons, Bool.and_eq_true] at hs
      obtain ⟨h0, h1, h2, h3, h4, h5, h6⟩ := runSimple_safe_preserves c e hs.1
      simp only [runBody]
      rcases hrs : runSimple c e with ⟨e1, er⟩
      rw [hrs] at h0 h1 h2 h3 h4 h5 h6
      dsimp only at h0 h1 h2 h3 h4 h5 h6
      subst h0
      obtain ⟨g0, g1, g2, g3, g4, g5, g6⟩ := ih e1 hs.2
      exact ⟨g0, g1.trans h1, g2.trans h2, g3.trans h3, g4.trans h4,
        g5.trans h5, g6.trans h6⟩

/-- While the scratch buffers are active (capture), no engine command
deactivates them, none writes to the main CPU-side buffers, and every flush
or append it issues goes against the scratch buffers. -/
theorem runSimple_capture (c : Cmd) (e : EState)
    (hus : e.rend.usingScratch = true) :
    (runSimple c e).1.rend.usingScratch = true ∧
      (runSimple c e).1.rend.mainVertexBuffer = e.rend.mainVertexBuffer ∧
      (runSimple c e).1.rend.mainTexcoordBuffer = e.rend.mainTexcoordBuffer ∧
      ∃ L, (runSimple c e).1.rend.batchLog = L ++ e.rend.batchLog ∧
        ∀ ev ∈ L, ev.evScratch = true := by
  cases c with
  | sprite x y w h sx sy sw sh =>
      have hr0 : (if e.rend.currentCacheId = none then ensureSegment .sheet e.rend
          else e.rend).usingScratch = true := by split_ifs <;> simp [hus]
      obtain ⟨_, _, _, hu, hmain, L, hL, hLs⟩ :=
        baseDrawSprite_preserves (x + e.offsetX) (y + e.offsetY) w h sx sy sw sh
          (if e.rend.currentCacheId = none then ensureSegment .sheet e.rend
           else e.rend)
      obtain ⟨hm1, hm2⟩ := hmain hr0
      have hfirst : (crDrawSprite (x + e.offsetX) (y + e.offsetY) w h sx sy sw sh
          e.rend).usingScratch = true := by
        unfold crDrawSprite
        rw [hu, hr0]
      refine ⟨hfirst, ?_, ?_, L, ?_, ?_⟩
      · show (crDrawSprite _ _ _ _ _ _ _ _ e.rend).mainVertexBuffer =
          e.rend.mainVertexBuffer
        unfold crDrawSprite
        rw [hm1]; split_ifs <;> simp
      · show (crDrawSprite _ _ _ _ _ _ _ _ e.rend).mainTexcoordBuffer =
          e.rend.mainTexcoordBuffer
        unfold crDrawSprite
        rw [hm2]; split_ifs <;> simp
      · show (crDrawSprite _ _ _ _ _ _ _ _ e.rend).batchLog = L ++ e.rend.batchLog
        unfold crDrawSprite
        rw [hL]; split_ifs <;> simp
      · intro ev hev
        rw [hLs ev hev, hr0]
  | line x1 y1 x2 y2 sx sy sw sh t =>
      have hr0 : (if e.rend.currentCacheId = none then ensureSegment .sheet e.rend
          else e.rend).usingScratch = true := by split_ifs <;> simp [hus]
      obtain ⟨_, _, _, hu, hmain, L, hL, hLs⟩ :=
        baseDrawLine_preserves (x1 + e.offsetX) (y1 + e.offsetY) (x2 + e.offsetX)
          (y2 + e.offsetY) sx sy sw sh t
          (if e.rend.currentCacheId = none then ensureSegment .sheet e.rend
           else e.rend)
      obtain ⟨hm1, hm2⟩ := hmain hr0
      have hfirst : (crDrawLine (x1 + e.offsetX) (y1 + e.offsetY) (x2 + e.offsetX)
          (y2 + e.offsetY) sx sy sw sh t e.rend).usingScratch = true := by
        unfold crDrawLine
        rw [hu, hr0]
      refine ⟨hfirst, ?_, ?_, L, ?_, ?_⟩
      · show (crDrawLine _ _ _ _ _ _ _ _ _ e.rend).mainVertexBuffer =
          e.rend.mainVertexBuffer
        unfold crDrawLine
        rw [hm1]; split_ifs <;> simp
      · show (crDrawLine _ _ _ _ _ _ _ _ _ e.rend).mainTexcoordBuffer =
          e.rend.mainTexcoordBuffer
        unfold crDrawLine
        rw [hm2]; split_ifs <;> simp
      · show (crDrawLine _ _ _ _ _ _ _ _ _ e.rend).batchLog = L ++ e.rend.batchLog
        unfold crDrawLine
        rw [hL]; split_ifs <;> simp
      · intro ev hev
        rw [hLs ev hev, hr0]
  | cached cacheId x y =>
      show (engineDrawCachedContent cacheId x y e).rend.usingScratch = true ∧
        (engineDrawCachedContent cacheId x y e).rend.mainVertexBuffer =
          e.rend.mainVertexBuffer ∧
        (engineDrawCachedContent cacheId x y e).rend.mainTexcoordBuffer =
          e.rend.mainTexcoordBuffer ∧
        ∃ L, (engineDrawCachedContent cacheId x y e).rend.batchLog =
            L ++ e.rend.batchLog ∧
          ∀ ev ∈ L, ev.evScratch = true
      unfold engineDrawCachedContent
      split
      · exact ⟨hus, rfl, rfl, ⟨[], by simp, by intro ev hev; simp at hev⟩⟩
      split
      · exact ⟨hus, rfl, rfl, ⟨[], by simp, by intro ev hev; simp at hev⟩⟩
      rcases hgd : getCachedData cacheId e.rend with ⟨d, r1⟩
      have hp := getCachedData_registry_fields cacheId e.rend
      have hq := getCachedData_batch_fields cacheId e.rend
      rw [hgd] at hp hq
      dsimp only at hp hq
      rcases d with _ | ⟨t, cw, ch⟩
      · exact ⟨by rw [hp.2.2.2.1]; exact hus, hp.2.2.2.2.1, hp.2.2.2.2.2,
          ⟨[], by simp [hq.2.2.1], by intro ev hev; simp at hev⟩⟩
      · have hr1 : r1.usingScratch = true := by rw [hp.2.2.2.1]; exact hus
        obtain ⟨_, _, _, gu, gmain, L, gL, gLs⟩ :=
          drawCachedTexture_preserves t cw ch (x + e.offsetX) (y + e.offsetY) r1
        obtain ⟨gm1, gm2⟩ := gmain hr1
        refine ⟨by rw [gu]; exact hr1, by rw [gm1]; exact hp.2.2.2.2.1,
          by rw [gm2]; exact hp.2.2.2.2.2, L, by rw [gL, hq.2.2.1], ?_⟩
        intro ev hev
        rw [gLs ev hev]; exact hr1
  | startGroup dx dy =>
      exact ⟨hus, rfl, rfl, ⟨[], by simp [runSimple], by intro ev hev; simp at hev⟩⟩
  | endGroup =>
      rcases hg : e.offsetGroups with _ | ⟨⟨dx, dy⟩, rest⟩
      · exact ⟨by simp [runSimple, hg]; exact hus, by simp [runSimple, hg],
          by simp [runSimple, hg],
          ⟨[], by simp [runSimple, hg], by intro ev hev; simp at hev⟩⟩
      · exact ⟨by simp [runSimple, hg]; exact hus, by simp [runSimple, hg],
          by simp [runSimple, hg],
          ⟨[], by simp [runSimple, hg], by intro ev hev; simp at hev⟩⟩
  | throwErr =>
      exact ⟨hus, rfl, rfl, ⟨[], by simp [runSimple], by intro ev hev; simp at hev⟩⟩

/-- `runSimple_capture` extended over command lists (whether or not the run
throws). -/
theorem runBody_capture (cmds : List Cmd) (e : EState)
    (hus : e.rend.usingScratch = true) :
    (runBody cmds e).1.rend.usingScratch = true ∧
      (runBody cmds e).1.rend.mainVertexBuffer = e.rend.mainVertexBuffer ∧
      (runBody cmds e).1.rend.mainTexcoordBuffer = e.rend.mainTexcoordBuffer ∧
      ∃ L, (runBody cmds e).1.rend.batchLog = L ++ e.rend.batchLog ∧
        ∀ ev ∈ L, ev.evScratch = true := by
  induction cmds generalizing e with
  | nil =>
      exact ⟨hus, rfl, rfl, ⟨[], by simp [runBody], by intro ev hev; simp at hev⟩⟩
  | cons c cs ih =>
      obtain ⟨h1, h2, h3, L1, hL1, hS1⟩ := runSimple_capture c e hus
      simp only [runBody]
      rcases hrs : runSimple c e with ⟨e1, er⟩
      rw [hrs] at h1 h2 h3 hL1
      dsimp only at h1 h2 h3 hL1
      cases er with
      | none =>
          obtain ⟨g1, g2, g3, L2, hL2, hS2⟩ := ih e1 h1
          refine ⟨g1, g2.trans h2, g3.trans h3, L2 ++ L1, ?_, ?_⟩
          · rw [hL2, hL1, List.append_assoc]
          · intro ev hev
            rcases List.mem_append.mp hev with h | h
            · exact hS2 ev h
            · exact hS1 ev h
      | some er => exact ⟨h1, h2, h3, L1, hL1, hS1⟩

/-- When the key is absent from the first map, lookup skips it. -/
theorem lookup_append_of_none {β : Type} (m1 m2 : List (String × β)) (k : String)
    (h : m1.lookup k = none) : (m1 ++ m2).lookup k = m2.lookup k := by
  induction m1 with
  | nil => simp
  | cons p m1 ih =>
      rcases p with ⟨k1, v1⟩
      simp only [List.lookup, List.cons_append] at h ⊢
      cases hk : k == k1 with
      | true => rw [hk] at h; exact Option.noConfusion h
      | false => rw [hk] at h; exact ih h

/-- `Map.set` of an absent key appends the binding. -/
theorem mapSet_of_none {β : Type} (m : List (String × β)) (k : String) (v : β)
    (h : m.lookup k = none) : mapSet m k v = m ++ [(k, v)] := by
  unfold mapSet
  rw [h]
  rfl

/-- Eviction exits immediately when the mapping is within the bound. -/
theorem evictOldCacheEntries_noop (r : RState)
    (h : r.cache.cmap.length ≤ r.maxCacheItems) :
    evictOldCacheEntries r = some r := by
  unfold evictOldCacheEntries evictGo
  cases hf : r.cache.corder.length <;> simp [evictLoop, h]

/-- No engine command touches the callback ghost log. -/
theorem runSimple_cbLog (c : Cmd) (e : EState) :
    (runSimple c e).1.cbLog = e.cbLog := by
  cases c with
  | cached cacheId x y => exact (engineDrawCachedContent_preserves cacheId x y e).2.2.2.2.1
  | endGroup =>
      rcases hg : e.offsetGroups with _ | ⟨⟨dx, dy⟩, rest⟩ <;> simp [runSimple, hg]
  | sprite x y w h sx sy sw sh => rfl
  | line x1 y1 x2 y2 sx sy sw sh t => rfl
  | startGroup dx dy => rfl
  | throwErr => rfl

/-- Command lists never touch the callback ghost log either. -/
theorem runBody_cbLog (cmds : List Cmd) (e : EState) :
    (runBody cmds e).1.cbLog = e.cbLog := by
  induction cmds generalizing e with
  | nil => rfl
  | cons c cs ih =>
      have h := runSimple_cbLog c e
      simp only [runBody]
      rcases hrs : runSimple c e with ⟨e1, er⟩
      rw [hrs] at h
      dsimp only at h
      cases er with
      | none => exact (ih e1).trans h
      | some er => exact h

/-- The engine state in which a creation-path `cacheGroup` callback runs:
scratch buffers active with the cursor zeroed, the fresh render target
registered under the id at the MRU end, capture marked in flight, and the
callback invocation (with the engine offsets in effect) ghost-logged. -/
def captureEntry (cacheId : String) (w h : ℚ) (e : EState) : EState :=
  { e with
    rend := { e.rend with
      usingScratch := true, bufferPointer := 0, bufferCounter := 0,
      nextHandle := e.rend.nextHandle + 2,
      cache := { cmap := mapSet e.rend.cache.cmap cacheId e.rend.nextHandle
                 cfbs := mapSet e.rend.cache.cfbs cacheId (e.rend.nextHandle + 1)
                 csizes := mapSet e.rend.cache.csizes cacheId (w, h)
                 corder := e.rend.cache.corder ++ [cacheId] }
      currentCacheId := some cacheId }
    cbLog := (e.offsetX, e.offsetY) :: e.cbLog }

/-- The creation path of `CachedRenderer.cacheGroup` in closed form: the
callback body runs at `captureEntry`, and the `finally` block flushes any
scratch content, swaps the main buffers back, restores the saved cursor and
clears the capture flag — on the throwing exit as well as the normal one. -/
theorem rendererCacheGroup_creation (cacheId : String) (w h : ℚ)
    (body : List Cmd) (e : EState)
    (hcc : e.rend.currentCacheId = none)
    (hm : e.rend.cache.cmap.lookup cacheId = none)
    (hcap : e.rend.cache.cmap.length + 1 ≤ e.rend.maxCacheItems) :
    rendererCacheGroup cacheId w h body e =
      (let eb := (runBody body (captureEntry cacheId w h e)).1
       let rb1 := if eb.rend.bufferCounter > 0
                  then resetBuffers (renderVertexBuffer eb.rend) else eb.rend
       ({ eb with rend := { rb1 with
            usingScratch := false,
            bufferPointer := e.rend.bufferPointer,
            bufferCounter := e.rend.bufferCounter,
            currentCacheId := none } },
        (runBody body (captureEntry cacheId w h e)).2, true)) := by
  unfold rendererCacheGroup
  rw [if_neg (by rw [hcc]; simp)]
  have hgd : getCachedData cacheId e.rend = (none, e.rend) := by
    unfold getCachedData
    rw [hm]
  rw [hgd]
  have hlen : (mapSet e.rend.cache.cmap cacheId e.rend.nextHandle).length =
      e.rend.cache.cmap.length + 1 := by
    rw [mapSet_of_none _ _ _ hm, List.length_append, List.length_singleton]
  have hev : evictOldCacheEntries (captureEntry cacheId w h e).rend =
      some (captureEntry cacheId w h e).rend := by
    apply evictOldCacheEntries_noop
    show (mapSet e.rend.cache.cmap cacheId e.rend.nextHandle).length ≤
      e.rend.maxCacheItems
    rw [hlen]
    exact hcap
  dsimp only
  split
  · next heq =>
      have hx : evictOldCacheEntries (captureEntry cacheId w h e).rend = none := heq
      rw [hev] at hx
      cases hx
  · next r4 heq =>
      have hx : evictOldCacheEntries (captureEntry cacheId w h e).rend =
        some r4 := heq
      rw [hev] at hx
      injection hx with hr4
      subst hr4
      rfl

/-- `Engine.drawCachedContent` touches only the renderer; the transform
offsets and their save slots are untouched. -/
theorem engineDrawCachedContent_engineFields (cacheId : String) (x y : ℚ)
    (e : EState) :
    (engineDrawCachedContent cacheId x y e).savedOffsetX = e.savedOffsetX ∧
      (engineDrawCachedContent cacheId x y e).savedOffsetY = e.savedOffsetY ∧
      (engineDrawCachedContent cacheId x y e).offsetX = e.offsetX ∧
      (engineDrawCachedContent cacheId x y e).offsetY = e.offsetY ∧
      (engineDrawCachedContent cacheId x y e).offsetGroups = e.offsetGroups := by
  unfold engineDrawCachedContent
  split
  · exact ⟨rfl, rfl, rfl, rfl, rfl⟩
  split
  · exact ⟨rfl, rfl, rfl, rfl, rfl⟩
  rcases hgd : getCachedData cacheId e.rend with ⟨d, r1⟩
  rcases d with _ | ⟨t, cw, ch⟩ <;> exact ⟨rfl, rfl, rfl, rfl, rfl⟩

/-- No engine command writes the offset save slots (only `cacheGroup`
itself does). -/
theorem runSimple_savedOffsets (c : Cmd) (e : EState) :
    (runSimple c e).1.savedOffsetX = e.savedOffsetX ∧
      (runSimple c e).1.savedOffsetY = e.savedOffsetY := by
  cases c with
  | cached cacheId x y =>
      have h := engineDrawCachedContent_engineFields cacheId x y e
      exact ⟨h.1, h.2.1⟩
  | endGroup =>
      rcases hg : e.offsetGroups with _ | ⟨⟨dx, dy⟩, rest⟩ <;>
        simp [runSimple, hg]
  | sprite x y w h sx sy sw sh => exact ⟨rfl, rfl⟩
  | line x1 y1 x2 y2 sx sy sw sh t => exact ⟨rfl, rfl⟩
  | startGroup dx dy => exact ⟨rfl, rfl⟩
  | throwErr => exact ⟨rfl, rfl⟩

/-- Command lists never write the offset save slots. -/
theorem runBody_savedOffsets (cmds : List Cmd) (e : EState) :
    (runBody cmds e).1.savedOffsetX = e.savedOffsetX ∧
      (runBody cmds e).1.savedOffsetY = e.savedOffsetY := by
  induction cmds generalizing e with
  | nil => exact ⟨rfl, rfl⟩
  | cons c cs ih =>
      obtain ⟨h1, h2⟩ := runSimple_savedOffsets c e
      simp only [runBody]
      rcases hrs : runSimple c e with ⟨e1, er⟩
      rw [hrs] at h1 h2
      dsimp only at h1 h2
      cases er with
      | none =>
          obtain ⟨g1, g2⟩ := ih e1
          exact ⟨g1.trans h1, g2.trans h2⟩
      | some er => exact ⟨h1, h2⟩

/-- The offset bookkeeping `Engine.cacheGroup` performs before entering the
renderer on the creation path: save the scalar offset and zero it. -/
def zeroOffsets (e : EState) : EState :=
  { e with savedOffsetX := some e.offsetX, savedOffsetY := some e.offsetY,
           offsetX := 0, offsetY := 0 }

/-- The creation path of `Engine.cacheGroup` in closed form: offsets saved
and zeroed, the renderer capture run (whose callback executes at
`captureEntry`), and the offsets restored only on the non-throwing exit. -/
theorem engineCacheGroup_creation_eq (cacheId : String) (w h : ℚ)
    (body : List Cmd) (e : EState)
    (hce : e.cachingEnabled = true)
    (hcc : e.rend.currentCacheId = none)
    (hm : e.rend.cache.cmap.lookup cacheId = none)
    (hcap : e.rend.cache.cmap.length + 1 ≤ e.rend.maxCacheItems) :
    engineCacheGroup cacheId w h body true e =
      (let run := runBody body (captureEntry cacheId w h (zeroOffsets e))
       let eb := run.1
       let rb1 := if eb.rend.bufferCounter > 0
                  then resetBuffers (renderVertexBuffer eb.rend) else eb.rend
       let ef : EState := { eb with rend := { rb1 with
           usingScratch := false,
           bufferPointer := e.rend.bufferPointer,
           bufferCounter := e.rend.bufferCounter,
           currentCacheId := none } }
       match run.2 with
       | some er => (ef, some er, true)
       | none =>
         match ef.savedOffsetX, ef.savedOffsetY with
         | some sx, some sy =>
             ({ ef with offsetX := sx, offsetY := sy,
                        savedOffsetX := none, savedOffsetY := none },
              none, true)
         | _, _ => (ef, none, true)) := by
  unfold engineCacheGroup
  rw [if_neg (by rw [hce]; simp)]
  rw [if_neg (by simp)]
  rw [if_neg (by simp [hasCachedContent, hm])]
  have hren := rendererCacheGroup_creation cacheId w h body (zeroOffsets e)
    hcc hm hcap
  rw [show ({ e with
        savedOffsetX := some e.offsetX
        savedOffsetY := some e.offsetY
        offsetX := 0
        offsetY := 0 } : EState) = zeroOffsets e from rfl]
  dsimp only
  rw [hren]
  rcases hrun : (runBody body (captureEntry cacheId w h (zeroOffsets e))).2
    with _ | er
  all_goals dsimp only
  all_goals rfl

@[simp] theorem finallyFlush_cache (r : RState) :
    (if r.bufferCounter > 0 then resetBuffers (renderVertexBuffer r) else r).cache
      = r.cache := by
  split_ifs <;> rfl

/-- The reuse path of `Engine.cacheGroup`: when the id is already cached,
the call plays the cached quad back and reports `false` without running the
callback. -/
theorem engineCacheGroup_reuse (cacheId : String) (w h : ℚ) (body : List Cmd)
    (f : EState) (hce2 : f.cachingEnabled = true)
    (hhc : hasCachedContent cacheId f.rend = true) :
    engineCacheGroup cacheId w h body true f =
      (engineDrawCachedContent cacheId 0 0 f, none, false) := by
  unfold engineCacheGroup
  rw [if_neg (by rw [hce2]; simp), if_neg (by simp), if_pos hhc]

/-- Consequences of a creation-path `cacheGroup` with a well-behaved (safe)
callback: it reports creation, throws nothing, logs exactly one callback
invocation at offset `(0, 0)`, ends outside capture with the new entry
appended to the mapping, and restores the scalar offset. -/
theorem engineCacheGroup_creation_facts (cacheId : String) (w h : ℚ)
    (body : List Cmd) (e : EState)
    (hce : e.cachingEnabled = true)
    (hcc : e.rend.currentCacheId = none)
    (hm : e.rend.cache.cmap.lookup cacheId = none)
    (hcap : e.rend.cache.cmap.length + 1 ≤ e.rend.maxCacheItems)
    (hsafe : body.all Cmd.isSafe = true) :
    (engineCacheGroup cacheId w h body true e).2.2 = true ∧
      (engineCacheGroup cacheId w h body true e).2.1 = none ∧
      (engineCacheGroup cacheId w h body true e).1.cbLog = (0, 0) :: e.cbLog ∧
      (engineCacheGroup cacheId w h body true e).1.cachingEnabled =
        e.cachingEnabled ∧
      (engineCacheGroup cacheId w h body true e).1.rend.currentCacheId = none ∧
      (engineCacheGroup cacheId w h body true e).1.rend.cache.cmap =
        e.rend.cache.cmap ++ [(cacheId, e.rend.nextHandle)] ∧
      (engineCacheGroup cacheId w h body true e).1.offsetX = e.offsetX ∧
      (engineCacheGroup cacheId w h body true e).1.offsetY = e.offsetY := by
  have hb := runBody_safe_preserves body
    (captureEntry cacheId w h (zeroOffsets e)) hsafe
  have hso := runBody_savedOffsets body (captureEntry cacheId w h (zeroOffsets e))
  have hcb := runBody_cbLog body (captureEntry cacheId w h (zeroOffsets e))
  have hsx : (runBody body (captureEntry cacheId w h (zeroOffsets e))).1.savedOffsetX
      = some e.offsetX := hso.1
  have hsy : (runBody body (captureEntry cacheId w h (zeroOffsets e))).1.savedOffsetY
      = some e.offsetY := hso.2
  rw [engineCacheGroup_creation_eq cacheId w h body e hce hcc hm hcap]
  dsimp only
  rw [hb.1, hsx, hsy]
  dsimp only
  refine ⟨rfl, rfl, hcb, hb.2.2.2.2.2.2, rfl, ?_, rfl, rfl⟩
  rw [finallyFlush_cache]
  rw [hb.2.2.1]
  exact mapSet_of_none _ _ _ hm

/-- C1: calling `cacheGroup(id, w, h, cb)` twice in a row from a state where
`id` is uncached and no capture is in flight (with room for the new entry
and a well-behaved callback): the first call executes `cb` exactly once
(ghost log gains one entry) and returns `true`; the second call does not
execute `cb` (ghost log unchanged), plays back the cached quad, and returns
`false`; neither call throws. -/
theorem c1_cacheGroup_runs_callback_once (cacheId : String) (w h : ℚ)
    (body : List Cmd) (e : EState)
    (hce : e.cachingEnabled = true)
    (hcc : e.rend.currentCacheId = none)
    (hm : e.rend.cache.cmap.lookup cacheId = none)
    (hcap : e.rend.cache.cmap.length + 1 ≤ e.rend.maxCacheItems)
    (hsafe : body.all Cmd.isSafe = true) :
    (engineCacheGroup cacheId w h body true e).2.2 = true ∧
      (engineCacheGroup cacheId w h body true e).2.1 = none ∧
      (engineCacheGroup cacheId w h body true e).1.cbLog = (0, 0) :: e.cbLog ∧
      (engineCacheGroup cacheId w h body true
          (engineCacheGroup cacheId w h body true e).1).2.2 = false ∧
      (engineCacheGroup cacheId w h body true
          (engineCacheGroup cacheId w h body true e).1).2.1 = none ∧
      (engineCacheGroup cacheId w h body true
          (engineCacheGroup cacheId w h body true e).1).1.cbLog =
        (0, 0) :: e.cbLog := by
  obtain ⟨f1, f2, f3, f4, _, f6, _, _⟩ :=
    engineCacheGroup_creation_facts cacheId w h body e hce hcc hm hcap hsafe
  have hhc2 : hasCachedContent cacheId
      (engineCacheGroup cacheId w h body true e).1.rend = true := by
    unfold hasCachedContent
    rw [f6, lookup_append_of_none _ _ _ hm]
    simp [List.lookup]
  have e2eq := engineCacheGroup_reuse cacheId w h body
    (engineCacheGroup cacheId w h body true e).1 (by rw [f4, hce]) hhc2
  refine ⟨f1, f2, f3, ?_, ?_, ?_⟩
  · rw [e2eq]
  · rw [e2eq]
  · rw [e2eq]
    dsimp only
    rw [(engineDrawCachedContent_preserves cacheId 0 0 _).2.2.2.2.1]
    exact f3

/-- C2 (amended): on the creation path of `cacheGroup`, for an arbitrary
callback (throwing or not): the call reports creation; the main geometry
arrays, the write cursor (`bufferPointer`/`bufferCounter`) and the capture
flag are restored to their pre-call values on every exit; every flush issued
during the call went against the scratch batch (never the pending
main-frame geometry); the callback is invoked exactly once with the scalar
offset zeroed; and the scalar offsets are restored to their pre-call values
whenever the callback returns normally (a throwing callback propagates its
error and leaves the offsets zeroed, the saved values still latched). -/
theorem c2_capture_isolation (cacheId : String) (w h : ℚ)
    (body : List Cmd) (e : EState)
    (hce : e.cachingEnabled = true)
    (hcc : e.rend.currentCacheId = none)
    (hm : e.rend.cache.cmap.lookup cacheId = none)
    (hcap : e.rend.cache.cmap.length + 1 ≤ e.rend.maxCacheItems) :
    (engineCacheGroup cacheId w h body true e).2.2 = true ∧
      (engineCacheGroup cacheId w h body true e).1.rend.bufferPointer =
        e.rend.bufferPointer ∧
      (engineCacheGroup cacheId w h body true e).1.rend.bufferCounter =
        e.rend.bufferCounter ∧
      (engineCacheGroup cacheId w h body true e).1.rend.mainVertexBuffer =
        e.rend.mainVertexBuffer ∧
      (engineCacheGroup cacheId w h body true e).1.rend.mainTexcoordBuffer =
        e.rend.mainTexcoordBuffer ∧
      (engineCacheGroup cacheId w h body true e).1.rend.currentCacheId = none ∧
      (∃ L, (engineCacheGroup cacheId w h body true e).1.rend.batchLog =
          L ++ e.rend.batchLog ∧ ∀ ev ∈ L, ev.evScratch = true) ∧
      (engineCacheGroup cacheId w h body true e).1.cbLog = (0, 0) :: e.cbLog ∧
      ((engineCacheGroup cacheId w h body true e).2.1 = none →
        (engineCacheGroup cacheId w h body true e).1.offsetX = e.offsetX ∧
          (engineCacheGroup cacheId w h body true e).1.offsetY = e.offsetY) ∧
      ((engineCacheGroup cacheId w h body true e).2.1 =
        (runBody body (captureEntry cacheId w h (zeroOffsets e))).2) := by
  obtain ⟨hu, hmv, hmt, L, hL, hS⟩ :=
    runBody_capture body (captureEntry cacheId w h (zeroOffsets e)) rfl
  have hcb := runBody_cbLog body (captureEntry cacheId w h (zeroOffsets e))
  have hso := runBody_savedOffsets body (captureEntry cacheId w h (zeroOffsets e))
  have hsx : (runBody body (captureEntry cacheId w h (zeroOffsets e))).1.savedOffsetX
      = some e.offsetX := hso.1
  have hsy : (runBody body (captureEntry cacheId w h (zeroOffsets e))).1.savedOffsetY
      = some e.offsetY := hso.2
  rw [engineCacheGroup_creation_eq cacheId w h body e hce hcc hm hcap]
  dsimp only
  rcases hrun : (runBody body (captureEntry cacheId w h (zeroOffsets e))).2
    with _ | er
  · rw [hsx, hsy]
    dsimp only
    by_cases hbc : (runBody body (captureEntry cacheId w h
        (zeroOffsets e))).1.rend.bufferCounter > 0
    · rw [if_pos hbc]
      refine ⟨rfl, rfl, rfl, hmv, hmt, rfl, ?_, hcb, fun _ => ⟨rfl, rfl⟩, rfl⟩
      refine ⟨BatchEv.flush (runBody body (captureEntry cacheId w h
          (zeroOffsets e))).1.rend.usingScratch (runBody body (captureEntry
          cacheId w h (zeroOffsets e))).1.rend.bufferCounter :: L, ?_, ?_⟩
      · show BatchEv.flush _ _ ::
          (runBody body (captureEntry cacheId w h (zeroOffsets e))).1.rend.batchLog
            = _
        rw [hL]
        rfl
      · intro ev hev
        rcases List.mem_cons.mp hev with h1 | h1
        · subst h1
          show (runBody body (captureEntry cacheId w h
            (zeroOffsets e))).1.rend.usingScratch = true
          exact hu
        · exact hS ev h1
    · rw [if_neg hbc]
      exact ⟨rfl, rfl, rfl, hmv, hmt, rfl, ⟨L, hL, hS⟩, hcb,
        fun _ => ⟨rfl, rfl⟩, rfl⟩
  · dsimp only
    by_cases hbc : (runBody body (captureEntry cacheId w h
        (zeroOffsets e))).1.rend.bufferCounter > 0
    · rw [if_pos hbc]
      refine ⟨rfl, rfl, rfl, hmv, hmt, rfl, ?_, hcb, ?_, rfl⟩
      · refine ⟨BatchEv.flush (runBody body (captureEntry cacheId w h
            (zeroOffsets e))).1.rend.usingScratch (runBody body (captureEntry
            cacheId w h (zeroOffsets e))).1.rend.bufferCounter :: L, ?_, ?_⟩
        · show BatchEv.flush _ _ ::
            (runBody body (captureEntry cacheId w h (zeroOffsets e))).1.rend.batchLog
              = _
          rw [hL]
          rfl
        · intro ev hev
          rcases List.mem_cons.mp hev with h1 | h1
          · subst h1
            show (runBody body (captureEntry cacheId w h
              (zeroOffsets e))).1.rend.usingScratch = true
            exact hu
          · exact hS ev h1
      · intro hnone
        exact Option.noConfusion hnone
    · rw [if_neg hbc]
      refine ⟨rfl, rfl, rfl, hmv, hmt, rfl, ⟨L, hL, hS⟩, hcb, ?_, rfl⟩
      intro hnone
      exact Option.noConfusion hnone

/-- C1 witness: a fresh caching engine creating then reusing cache id
`"g"` with an empty callback. -/
theorem c1_cacheGroup_runs_callback_once_witness :
    (initEState 3).cachingEnabled = true ∧
      (initEState 3).rend.currentCacheId = none ∧
      (initEState 3).rend.cache.cmap.lookup "g" = none ∧
      (initEState 3).rend.cache.cmap.length + 1 ≤ (initEState 3).rend.maxCacheItems ∧
      ([] : List Cmd).all Cmd.isSafe = true ∧
      ((engineCacheGroup "g" 10 10 [] true (initEState 3)).2.2 = true ∧
        (engineCacheGroup "g" 10 10 [] true (initEState 3)).2.1 = none ∧
        (engineCacheGroup "g" 10 10 [] true (initEState 3)).1.cbLog =
          (0, 0) :: (initEState 3).cbLog ∧
        (engineCacheGroup "g" 10 10 [] true
            (engineCacheGroup "g" 10 10 [] true (initEState 3)).1).2.2 = false ∧
        (engineCacheGroup "g" 10 10 [] true
            (engineCacheGroup "g" 10 10 [] true (initEState 3)).1).2.1 = none ∧
        (engineCacheGroup "g" 10 10 [] true
            (engineCacheGroup "g" 10 10 [] true (initEState 3)).1).1.cbLog =
          (0, 0) :: (initEState 3).cbLog) :=
  ⟨by decide, by decide, by decide, by decide, by decide,
   c1_cacheGroup_runs_callback_once "g" 10 10 [] (initEState 3)
     (by decide) (by decide) (by decide) (by decide) (by decide)⟩

/-- C2 witness: the amended capture-isolation theorem applied to an engine
with offset `(5, 7)` and a callback that draws one sprite and then throws;
the amended conclusions hold and the theorem's normal-return conjunct is
vacuous for this callback. -/
theorem c2_capture_isolation_witness :
    (let e : EState := { initEState 3 with offsetX := 5, offsetY := 7 }
     let body := [Cmd.sprite 0 0 4 4 0 0 4 4, Cmd.throwErr]
     e.cachingEnabled = true ∧ e.rend.currentCacheId = none ∧
       e.rend.cache.cmap.lookup "g" = none ∧
       e.rend.cache.cmap.length + 1 ≤ e.rend.maxCacheItems ∧
       ((engineCacheGroup "g" 10 10 body true e).2.2 = true ∧
         (engineCacheGroup "g" 10 10 body true e).1.rend.bufferPointer =
           e.rend.bufferPointer ∧
         (engineCacheGroup "g" 10 10 body true e).1.rend.bufferCounter =
           e.rend.bufferCounter ∧
         (engineCacheGroup "g" 10 10 body true e).1.rend.mainVertexBuffer =
           e.rend.mainVertexBuffer ∧
         (engineCacheGroup "g" 10 10 body true e).1.rend.mainTexcoordBuffer =
           e.rend.mainTexcoordBuffer ∧
         (engineCacheGroup "g" 10 10 body true e).1.rend.currentCacheId = none ∧
         (∃ L, (engineCacheGroup "g" 10 10 body true e).1.rend.batchLog =
             L ++ e.rend.batchLog ∧ ∀ ev ∈ L, ev.evScratch = true) ∧
         (engineCacheGroup "g" 10 10 body true e).1.cbLog = (0, 0) :: e.cbLog ∧
         ((engineCacheGroup "g" 10 10 body true e).2.1 = none →
           (engineCacheGroup "g" 10 10 body true e).1.offsetX = e.offsetX ∧
             (engineCacheGroup "g" 10 10 body true e).1.offsetY = e.offsetY) ∧
         ((engineCacheGroup "g" 10 10 body true e).2.1 =
           (runBody body (captureEntry "g" 10 10 (zeroOffsets e))).2))) :=
  ⟨by decide, by decide, by decide, by decide,
   c2_capture_isolation "g" 10 10 [Cmd.sprite 0 0 4 4 0 0 4 4, Cmd.throwErr]
     { initEState 3 with offsetX := 5, offsetY := 7 }
     (by decide) (by decide) (by decide) (by decide)⟩
